import Mathlib

/-! # nav_lights: airplane navigation lights (ATtiny, `nav_lights.c` and `pin.h`)

A shallow embedding of the firmware.

* 8-bit registers and `uint8_t` variables are natural numbers; a store into one
  is written `% 256` where the stored expression can leave the range.
* The interrupt context (`ISR(PCINT0_vect)`) is a function on the capture
  variables `clock_start` and `elapsed`.
* The main-loop context is a function on a `State` that carries the output
  registers and the trace of externally visible actions.  What the main loop
  cannot control is supplied by an `Env`: the value the volatile `elapsed`
  holds each time it is copied, and the value of the input register `PINB`
  each time it is sampled.
* Loops take a fuel argument and return `none` when it runs out; the callers
  pass enough fuel and the theorems show a `some` result.
-/

namespace NavLights

/-! ## pin.h -/

/-- The `pin_t` object.  Every pin of `configure_pins` is initialised on port B,
so its three register pointers are `&DDRB`, `&PORTB` and `&PINB`; what
distinguishes one pin from another is `position`. -/
structure pin_t where
  position : Nat
  deriving DecidableEq, Repr

/-- The avr-libc bit-value helper: `_BV(bit)` is `1 << bit`. -/
def _BV (bit : Nat) : Nat := 1 <<< bit

/-- The register value after `pin_output(pin)`:
`*(pin.data_direction_register) |= _BV(pin.position)`. -/
def pin_output_reg (ddr : Nat) (pin : pin_t) : Nat :=
  (ddr ||| _BV pin.position) % 256

/-- The register value after `pin_high(pin)`:
`*(pin.port_register) |= _BV(pin.position)`. -/
def pin_high_reg (port : Nat) (pin : pin_t) : Nat :=
  (port ||| _BV pin.position) % 256

/-- The register value after `pin_low(pin)`:
`*(pin.port_register) &= ~_BV(pin.position)`; the complement is taken in the
16-bit `int` of the target and the result is stored back into 8 bits. -/
def pin_low_reg (port : Nat) (pin : pin_t) : Nat :=
  (port &&& (65535 ^^^ _BV pin.position)) % 256

/-- The value of `pin_read(pin)` for a given content of the pin register:
`(*(pin.pin_register) & _BV(pin.position)) >> pin.position`. -/
def pin_read_reg (pinreg : Nat) (pin : pin_t) : Nat :=
  (pinreg &&& _BV pin.position) >>> pin.position

/-! ## nav_lights.c: pins and constants -/

/-- Modelled from the spec: the macro `pin_init` is called by `configure_pins`
but is not defined in pin.h.  Like `pin_static_def(port, position)` it is taken
to bind the pin to the registers of the named port and to bit `position`; the
port is B in every call. -/
def pin_init (position : Nat) : pin_t := ⟨position⟩

/-- Pin `strobe_a`: `pin_init(&strobe_a, B, 2)`. -/
def strobe_a : pin_t := pin_init 2
/-- Pin `strobe_b`: `pin_init(&strobe_b, B, 4)`. -/
def strobe_b : pin_t := pin_init 4
/-- Pin `left_wing`: `pin_init(&left_wing, B, 1)`. -/
def left_wing : pin_t := pin_init 1
/-- Pin `right_wing`: `pin_init(&right_wing, B, 0)`. -/
def right_wing : pin_t := pin_init 0
/-- Pin `data`: `pin_init(&data, B, 3)`. -/
def data : pin_t := pin_init 3

def strobe_off_time : Nat := 1000
def strobe_on_time : Nat := 60
def pulse_width_threshold : Nat := 92
def deadband : Nat := 4

/-! ## Interrupt context -/

/-- The variables of the capture interrupt: the handler's `static uint8_t
clock_start` and the shared `volatile uint8_t elapsed`, both initially 0. -/
structure Capture where
  clock_start : Nat
  elapsed : Nat
  deriving DecidableEq, Repr

/-- The capture variables at reset. -/
def Capture.init : Capture := ⟨0, 0⟩

/-- One run of `ISR(PCINT0_vect)`, given the contents of `PINB` and of the
8-bit counter `TCNT1` when it runs.  The C expressions are evaluated in `int`;
`clock_start` is at most 255 in every state the handler itself produces, so
`255 - clock_start` does not go below zero. -/
def PCINT0_vect (PINB TCNT1 : Nat) (c : Capture) : Capture :=
  if pin_read_reg PINB data = 1 then
    -- Pin went high - begin counting
    { c with clock_start := TCNT1 % 256 }
  else
    -- Pin went low - stop count and set result
    let clock_end := TCNT1 % 256
    if clock_end < c.clock_start then
      { c with elapsed := ((255 - c.clock_start) + clock_end) % 256 }
    else
      { c with elapsed := (clock_end - c.clock_start) % 256 }

/-- A rising edge with the counter at `start` followed by a falling edge with
the counter at `stop`: the two handler runs that measure one pulse.  `hi` and
`lo` are the contents of `PINB` at the two edges. -/
def capture_pulse (hi lo start stop : Nat) (c : Capture) : Capture :=
  PCINT0_vect lo stop (PCINT0_vect hi start c)

/-! ## Main-loop context -/

/-- An externally visible action of the main loop. -/
inductive Event where
  | pin_high (pin : pin_t)
  | pin_low (pin : pin_t)
  | pin_read (pin : pin_t) (value : Nat)
  | delay_ms (ms : Nat)
  | read_pulse_width (value : Nat)
  | sleep_mode
  deriving DecidableEq, Repr

/-- What the main loop does not control: `elapsed n` is the value the volatile
`elapsed` holds during the `n`-th critical section of `read_pulse_width`
(the interrupt handler may have rewritten it since the previous one), and
`PINB n` is the content of the input register at the `n`-th `pin_read`. -/
structure Env where
  elapsed : Nat → Nat
  PINB : Nat → Nat

/-- The main-loop state: the port B output registers, how many times `elapsed`
and `PINB` have been read so far, and the actions performed so far. -/
structure State where
  DDRB : Nat
  PORTB : Nat
  reads : Nat
  samples : Nat
  trace : List Event
  deriving DecidableEq, Repr

/-- The state at reset. -/
def State.init : State := ⟨0, 0, 0, 0, []⟩

def pin_output (pin : pin_t) (s : State) : State :=
  { s with DDRB := pin_output_reg s.DDRB pin }

def pin_high (pin : pin_t) (s : State) : State :=
  { s with PORTB := pin_high_reg s.PORTB pin, trace := s.trace ++ [Event.pin_high pin] }

def pin_low (pin : pin_t) (s : State) : State :=
  { s with PORTB := pin_low_reg s.PORTB pin, trace := s.trace ++ [Event.pin_low pin] }

def pin_read (env : Env) (pin : pin_t) (s : State) : Nat × State :=
  let value := pin_read_reg (env.PINB s.samples) pin
  (value, { s with samples := s.samples + 1, trace := s.trace ++ [Event.pin_read pin value] })

def delay_ms (ms : Nat) (s : State) : State :=
  { s with trace := s.trace ++ [Event.delay_ms ms] }

def sleep_mode (s : State) : State :=
  { s with trace := s.trace ++ [Event.sleep_mode] }

/-- The accessor `read_pulse_width`: `cli(); result = elapsed; sei(); return result;`. -/
def read_pulse_width (env : Env) (s : State) : Nat × State :=
  let result := env.elapsed s.reads
  (result, { s with reads := s.reads + 1, trace := s.trace ++ [Event.read_pulse_width result] })

/-- The local constant `step_size` of `monitored_pause`. -/
def step_size : Nat := 50

/-- The `while (!broken && time_ms > step_size)` loop of `monitored_pause`;
returns the final `broken`.  `time_ms` is a `uint16_t`. -/
def monitored_pause_loop (env : Env) : Nat → Bool → Nat → State → Option (Bool × State)
  | 0, _, _, _ => none
  | fuel + 1, broken, time_ms, s =>
    if !broken && decide (time_ms > step_size) then
      let s := delay_ms step_size s
      let (width, s) := read_pulse_width env s
      if width < pulse_width_threshold then
        monitored_pause_loop env fuel true time_ms s
      else
        monitored_pause_loop env fuel broken ((time_ms + 65536 - step_size) % 65536) s
    else
      some (broken, s)

/-- The function `monitored_pause(time_ms)`; returns `!broken`. -/
def monitored_pause (env : Env) (time_ms : Nat) (s : State) : Option (Bool × State) :=
  match monitored_pause_loop env (time_ms + 2) false (time_ms % 65536) s with
  | none => none
  | some (broken, s) => some (!broken, s)

def strobe_animate (s : State) : State :=
  let s := pin_high strobe_a s
  let s := delay_ms strobe_on_time s
  let s := pin_low strobe_a s
  let s := delay_ms strobe_on_time s
  let s := pin_high strobe_b s
  let s := delay_ms strobe_on_time s
  pin_low strobe_b s

def configure_pins (s : State) : State :=
  let s := pin_output strobe_a s
  let s := pin_output strobe_b s
  let s := pin_output left_wing s
  pin_output right_wing s

/-- The local constant `max_loops` of `probe_for_radio`. -/
def max_loops : Nat := 10

/-- The `for (loops = 0; !found && loops < max_loops; loops++)` loop of
`probe_for_radio`; returns the final `found`.  `loops` is a `uint8_t`. -/
def probe_for_radio_loop (env : Env) (data status_light : pin_t) :
    Nat → Bool → Nat → State → Option (Bool × State)
  | 0, _, _, _ => none
  | fuel + 1, found, loops, s =>
    if !found && decide (loops < max_loops) then
      let s := pin_high status_light s
      let s := delay_ms 100 s
      let s := pin_low status_light s
      let (value, s) := pin_read env data s
      let found := decide (value = 0)
      let s := if !found then delay_ms 900 s else s
      probe_for_radio_loop env data status_light fuel found ((loops + 1) % 256) s
    else
      some (found, s)

/-- The function `probe_for_radio(data, status_light)`. -/
def probe_for_radio (env : Env) (data status_light : pin_t) (s : State) :
    Option (Bool × State) :=
  -- Enable pull-up on the data pin
  let s := pin_high data s
  match probe_for_radio_loop env data status_light (max_loops + 1) false 0 s with
  | none => none
  | some (found, s) =>
    -- If a radio is connected, then a pull-up is not necessary
    if found then some (found, pin_low data s) else some (found, s)

/-- The first two parts of `handle_lights`, "Determine if lights are requested"
and "Handle state transitions"; returns the local `lights_active` with which
the third part, "Strobe or sleep", is entered. -/
def handle_lights_decide (env : Env) (radio_is_connected : Bool) (s : State) : Bool × State :=
  let lights_active := false
  let lights_requested := false
  -- Determine if lights are requested
  let (lights_requested, s) :=
    if !radio_is_connected then
      (true, s)
    else
      let (pulse_width, s) := read_pulse_width env s
      if pulse_width ≥ pulse_width_threshold + deadband then
        (true, s)
      else if pulse_width < pulse_width_threshold then
        (false, s)
      else
        (lights_requested, s)
  -- Handle state transitions
  if !lights_active && lights_requested then
    (true, pin_high right_wing (pin_high left_wing s))
  else if lights_active && !lights_requested then
    (false, pin_low right_wing (pin_low left_wing s))
  else
    (lights_active, s)

/-- The function `handle_lights(radio_is_connected)`. -/
def handle_lights (env : Env) (radio_is_connected : Bool) (s : State) : Option State :=
  let (lights_active, s) := handle_lights_decide env radio_is_connected s
  -- Strobe or sleep
  if lights_active then
    if !radio_is_connected then
      some (strobe_animate (delay_ms strobe_off_time s))
    else
      match monitored_pause env strobe_off_time s with
      | none => none
      | some (true, s) => some (strobe_animate s)
      | some (false, s) => some s
  else
    some (sleep_mode s)

/-- The first `n` iterations of `while (true) handle_lights(radio_is_connected);`
in `main`. -/
def main_loop (env : Env) (radio_is_connected : Bool) : Nat → State → Option State
  | 0, s => some s
  | n + 1, s =>
    match handle_lights env radio_is_connected s with
    | none => none
    | some s => main_loop env radio_is_connected n s

/-! ## Reading traces -/

/-- The milliseconds spent in `delay_ms` by a list of actions. -/
def total_delay : List Event → Nat
  | [] => 0
  | Event.delay_ms ms :: rest => ms + total_delay rest
  | _ :: rest => total_delay rest

/-- The actions of `n` consecutive steps of the `monitored_pause` loop, the
first of which copies `elapsed` for the `r`-th time: each step is a delay of
`step_size` followed by one `read_pulse_width`. -/
def pause_steps (env : Env) (r : Nat) : Nat → List Event
  | 0 => []
  | n + 1 =>
    Event.delay_ms step_size :: Event.read_pulse_width (env.elapsed r) :: pause_steps env (r + 1) n

/-- The state `n` steps of the `monitored_pause` loop later. -/
def after_pause_steps (env : Env) (n : Nat) (s : State) : State :=
  { s with reads := s.reads + n, trace := s.trace ++ pause_steps env s.reads n }

/-- The state after one attempt of the `probe_for_radio` loop, up to and
including the sample of the data line. -/
def after_probe_sample (env : Env) (data status_light : pin_t) (s : State) : State :=
  (pin_read env data (pin_low status_light (delay_ms 100 (pin_high status_light s)))).2

/-- The state `n` unsuccessful attempts of the `probe_for_radio` loop later. -/
def after_probe_misses (env : Env) (data status_light : pin_t) : Nat → State → State
  | 0, s => s
  | n + 1, s =>
    after_probe_misses env data status_light n
      (delay_ms 900 (after_probe_sample env data status_light s))

/-- The actions of one unsuccessful attempt whose sample of the data line
returned `value`: status light high, 100 ms, status light low, the sample,
900 ms. -/
def probe_miss (data status_light : pin_t) (value : Nat) : List Event :=
  [Event.pin_high status_light, Event.delay_ms 100, Event.pin_low status_light,
   Event.pin_read data value, Event.delay_ms 900]

/-- The actions of the successful attempt: status light high, 100 ms, status
light low, the sample that reads 0. -/
def probe_hit (data status_light : pin_t) : List Event :=
  [Event.pin_high status_light, Event.delay_ms 100, Event.pin_low status_light,
   Event.pin_read data 0]

/-- The actions of `n` consecutive unsuccessful attempts, the first of which
samples `PINB` for the `r`-th time. -/
def probe_misses (env : Env) (data status_light : pin_t) (r : Nat) : Nat → List Event
  | 0 => []
  | n + 1 =>
    probe_miss data status_light (pin_read_reg (env.PINB r) data) ++
      probe_misses env data status_light (r + 1) n

/-! ## Concrete inputs used below -/

/-- A `PINB` content with the data line (bit 3) high. -/
def PINB_high : Nat := 8
/-- A `PINB` content with the data line (bit 3) low. -/
def PINB_low : Nat := 0

/-- An environment in which `elapsed` always holds `w` and `PINB` always holds `p`. -/
def Env.const (w p : Nat) : Env := ⟨fun _ => w, fun _ => p⟩

/-- An environment in which the first `n` copies of `elapsed` give `w`, and all
later ones give `w2`. -/
def Env.switch (n w w2 : Nat) : Env := ⟨fun i => if i < n then w else w2, fun _ => PINB_low⟩

/-- An environment in which the data line reads high at the first `n` samples of
`PINB` and low afterwards. -/
def Env.low_after (n : Nat) : Env := ⟨fun _ => 0, fun i => if i < n then PINB_high else PINB_low⟩

/-- The state in which the first call of `handle_lights` with a radio present
leaves the machine, starting from reset. -/
def first_iteration (env : Env) : State :=
  (handle_lights env true State.init).getD State.init

/-- The capture variables after the handler has run once for each interrupt of
the list, in order.  An interrupt is the pair of the contents of `PINB` and of
`TCNT1` when the handler runs. -/
def run_interrupts (irqs : List (Nat × Nat)) (c : Capture) : Capture :=
  irqs.foldl (fun c irq => PCINT0_vect irq.1 irq.2 c) c

/-- The environment produced by an interrupt schedule: `irqs n` lists the
interrupts handled since reset when `elapsed` is copied for the `n`-th time. -/
def Env.of_interrupts (irqs : Nat → List (Nat × Nat)) (pinb : Nat → Nat) : Env :=
  ⟨fun n => (run_interrupts (irqs n) Capture.init).elapsed, pinb⟩

/-- The actions of one strobe burst: what `strobe_animate` appends to the trace. -/
def strobe_events : List Event := (strobe_animate State.init).trace

/-- The actions performed on the way from state `s` to the later state `s2`. -/
def events_since (s s2 : State) : List Event := s2.trace.drop s.trace.length

/-! ## Theorems: pulse capture -/

/-- C1 (the code at the claim's own witness): a rising edge at counter value 250
followed by a falling edge at counter value 10 publishes 15 to `elapsed`, while
the forward distance modulo 256, `(256 - 250) + 10`, is 16. -/
theorem capture_pulse_wrap_250_10 :
    capture_pulse PINB_high PINB_low 250 10 Capture.init = ⟨250, 15⟩ ∧
      (256 - 250) + 10 = 16 ∧
      (capture_pulse PINB_high PINB_low 250 10 Capture.init).elapsed + 1 = (256 - 250) + 10 := by
  decide

/-- C2: for 8-bit counter values `start ≤ stop`, a rising edge at `start`
followed by a falling edge at `stop` publishes `elapsed = stop - start`, a value
in `0..255`, whatever the capture variables held before. -/
theorem capture_pulse_no_wrap (hi lo start stop : Nat) (c : Capture)
    (hhi : pin_read_reg hi data = 1) (hlo : pin_read_reg lo data = 0)
    (hstart : start < 256) (hstop : stop < 256) (h : start ≤ stop) :
    (capture_pulse hi lo start stop c).elapsed = stop - start ∧
      (capture_pulse hi lo start stop c).elapsed < 256 ∧
      (capture_pulse hi lo start stop c).clock_start = start := by
  have h1 : start % 256 = start := Nat.mod_eq_of_lt hstart
  have h2 : stop % 256 = stop := Nat.mod_eq_of_lt hstop
  have h3 : (stop - start) % 256 = stop - start := Nat.mod_eq_of_lt (by omega)
  have h4 : ¬ stop < start := by omega
  simp [capture_pulse, PCINT0_vect, hhi, hlo, h1, h2, h3, h4]
  omega

/-- Witness for C2: start 10, stop 250. -/
theorem capture_pulse_no_wrap_witness :
    (capture_pulse PINB_high PINB_low 10 250 Capture.init).elapsed = 250 - 10 ∧
      (capture_pulse PINB_high PINB_low 10 250 Capture.init).elapsed < 256 ∧
      (capture_pulse PINB_high PINB_low 10 250 Capture.init).clock_start = 10 :=
  capture_pulse_no_wrap PINB_high PINB_low 10 250 Capture.init (by decide) (by decide)
    (by decide) (by decide) (by decide)

/-! ## Lemmas: traces -/

theorem total_delay_append (xs ys : List Event) :
    total_delay (xs ++ ys) = total_delay xs + total_delay ys := by
  induction xs with
  | nil => simp [total_delay]
  | cons x xs ih => cases x <;> simp [total_delay, ih, Nat.add_assoc]

theorem total_delay_pause_steps (env : Env) (r n : Nat) :
    total_delay (pause_steps env r n) = step_size * n := by
  induction n generalizing r with
  | zero => simp [pause_steps, total_delay]
  | succ n ih => simp [pause_steps, total_delay, ih, Nat.mul_succ, Nat.add_comm]

theorem mem_pause_steps (env : Env) (r n : Nat) (e : Event) (h : e ∈ pause_steps env r n) :
    e = Event.delay_ms step_size ∨ ∃ v, e = Event.read_pulse_width v := by
  induction n generalizing r with
  | zero => simp [pause_steps] at h
  | succ n ih =>
    simp only [pause_steps, List.mem_cons] at h
    rcases h with h | h | h
    · exact Or.inl h
    · exact Or.inr ⟨_, h⟩
    · exact ih (r + 1) h

theorem after_pause_steps_succ (env : Env) (n : Nat) (s : State) :
    after_pause_steps env n (read_pulse_width env (delay_ms step_size s)).2 =
      after_pause_steps env (n + 1) s := by
  simp [after_pause_steps, read_pulse_width, delay_ms, pause_steps, Nat.add_assoc,
    Nat.add_comm 1 n]

/-! ## Lemmas: the loop of `monitored_pause` -/

/-- Once `broken` is set the loop exits. -/
theorem monitored_pause_loop_broken (env : Env) (fuel t : Nat) (s : State) :
    monitored_pause_loop env (fuel + 1) true t s = some (true, s) := by
  simp [monitored_pause_loop]

/-- One step of the loop with a sample at or above the threshold. -/
theorem monitored_pause_loop_step (env : Env) (fuel t : Nat) (s : State)
    (ht : step_size < t) (ht2 : t < 65536)
    (hw : pulse_width_threshold ≤ env.elapsed s.reads) :
    monitored_pause_loop env (fuel + 1) false t s =
      monitored_pause_loop env fuel false (t - step_size)
        (read_pulse_width env (delay_ms step_size s)).2 := by
  have h1 : ¬ env.elapsed s.reads < pulse_width_threshold := by omega
  have h2 : (t + 65536 - step_size) % 65536 = t - step_size := by
    simp only [step_size] at ht ⊢
    omega
  simp [monitored_pause_loop, ht, read_pulse_width, delay_ms, h1, h2]

/-- One step of the loop with a sample below the threshold. -/
theorem monitored_pause_loop_break (env : Env) (fuel t : Nat) (s : State)
    (ht : step_size < t) (hw : env.elapsed s.reads < pulse_width_threshold) :
    monitored_pause_loop env (fuel + 2) false t s =
      some (true, (read_pulse_width env (delay_ms step_size s)).2) := by
  simp [monitored_pause_loop, ht, read_pulse_width, delay_ms, hw]

/-- The loop exits at once when `time_ms` is not above `step_size`. -/
theorem monitored_pause_loop_done (env : Env) (fuel t : Nat) (s : State)
    (ht : t ≤ step_size) :
    monitored_pause_loop env (fuel + 1) false t s = some (false, s) := by
  have h : ¬ step_size < t := by omega
  simp [monitored_pause_loop, h]

/-- Uninterrupted run: if `time_ms` allows exactly `n` steps and the `n` samples
are all at or above the threshold, the loop ends unbroken after `n` steps. -/
theorem monitored_pause_loop_run (env : Env) (n : Nat) :
    ∀ (fuel t : Nat) (s : State), t < 65536 → n < fuel →
      (n = 0 ∨ step_size * n < t) → t ≤ step_size * (n + 1) →
      (∀ i, i < n → pulse_width_threshold ≤ env.elapsed (s.reads + i)) →
      monitored_pause_loop env fuel false t s = some (false, after_pause_steps env n s) := by
  induction n with
  | zero =>
    intro fuel t s _ hf _ hhi _
    obtain ⟨f, rfl⟩ : ∃ f, fuel = f + 1 := ⟨fuel - 1, by omega⟩
    rw [monitored_pause_loop_done env f t s (by simp only [step_size] at hhi ⊢; omega)]
    simp [after_pause_steps, pause_steps]
  | succ n ih =>
    intro fuel t s ht hf hlo hhi hw
    obtain ⟨f, rfl⟩ : ∃ f, fuel = f + 1 := ⟨fuel - 1, by omega⟩
    have hlo2 : step_size * (n + 1) < t := by omega
    have ht50 : step_size < t := by simp only [step_size] at hlo2 ⊢; omega
    rw [monitored_pause_loop_step env f t s ht50 ht (by simpa using hw 0 (by omega))]
    rw [ih f (t - step_size) _ (by omega) (by omega)
      (by simp only [step_size] at hlo2 ⊢; omega) (by simp only [step_size] at hhi ⊢; omega)
      (by
        intro i hi
        have := hw (i + 1) (by omega)
        simpa [read_pulse_width, delay_ms, Nat.add_assoc, Nat.add_comm 1 i] using this)]
    rw [after_pause_steps_succ]

/-- Early exit: if the first `j` samples are at or above the threshold, the next
one is below it, and `time_ms` allows more than `j` steps, the loop ends broken
after `j + 1` steps. -/
theorem monitored_pause_loop_stop (env : Env) (j : Nat) :
    ∀ (fuel t : Nat) (s : State), t < 65536 → j + 2 ≤ fuel →
      step_size * (j + 1) < t →
      (∀ i, i < j → pulse_width_threshold ≤ env.elapsed (s.reads + i)) →
      env.elapsed (s.reads + j) < pulse_width_threshold →
      monitored_pause_loop env fuel false t s = some (true, after_pause_steps env (j + 1) s) := by
  induction j with
  | zero =>
    intro fuel t s _ hf hlo _ hlt
    obtain ⟨f, rfl⟩ : ∃ f, fuel = f + 2 := ⟨fuel - 2, by omega⟩
    rw [monitored_pause_loop_break env f t s (by simp only [step_size] at hlo ⊢; omega)
      (by simpa using hlt)]
    simp [after_pause_steps, pause_steps, read_pulse_width, delay_ms]
  | succ j ih =>
    intro fuel t s ht hf hlo hw hlt
    obtain ⟨f, rfl⟩ : ∃ f, fuel = f + 1 := ⟨fuel - 1, by omega⟩
    have ht50 : step_size < t := by simp only [step_size] at hlo ⊢; omega
    rw [monitored_pause_loop_step env f t s ht50 ht (by simpa using hw 0 (by omega))]
    rw [ih f (t - step_size) _ (by omega) (by omega)
      (by simp only [step_size] at hlo ⊢; omega)
      (by
        intro i hi
        have := hw (i + 1) (by omega)
        simpa [read_pulse_width, delay_ms, Nat.add_assoc, Nat.add_comm 1 i] using this)
      (by simpa [read_pulse_width, delay_ms, Nat.add_assoc, Nat.add_comm 1 j] using hlt)]
    rw [after_pause_steps_succ]

/-- The loop always ends, and all it does is some number of its steps. -/
theorem monitored_pause_loop_total (env : Env) (fuel : Nat) :
    ∀ (t : Nat) (s : State), t < 65536 → t + 2 ≤ fuel →
      ∃ broken m, monitored_pause_loop env fuel false t s =
        some (broken, after_pause_steps env m s) := by
  induction fuel with
  | zero => intro t s _ hf; omega
  | succ f ih =>
    intro t s ht hf
    by_cases ht50 : step_size < t
    · by_cases hw : env.elapsed s.reads < pulse_width_threshold
      · obtain ⟨g, rfl⟩ : ∃ g, f = g + 1 := ⟨f - 1, by omega⟩
        refine ⟨true, 1, ?_⟩
        rw [monitored_pause_loop_break env g t s ht50 hw]
        simp [after_pause_steps, pause_steps, read_pulse_width, delay_ms]
      · rw [monitored_pause_loop_step env f t s ht50 ht (by omega)]
        obtain ⟨b, m, hm⟩ := ih (t - step_size)
          (read_pulse_width env (delay_ms step_size s)).2 (by omega)
          (by simp only [step_size] at ht50 ⊢; omega)
        exact ⟨b, m + 1, by rw [hm, after_pause_steps_succ]⟩
    · exact ⟨false, 0, by
        rw [monitored_pause_loop_done env f t s (by omega)]
        simp [after_pause_steps, pause_steps]⟩

/-- The function `monitored_pause(1000)` always returns, and all it does is some
number of loop steps. -/
theorem monitored_pause_total (env : Env) (s : State) :
    ∃ ok m, monitored_pause env strobe_off_time s = some (ok, after_pause_steps env m s) := by
  obtain ⟨b, m, hm⟩ := monitored_pause_loop_total env (strobe_off_time + 2)
    (strobe_off_time % 65536) s (by decide) (by decide)
  exact ⟨!b, m, by simp [monitored_pause, hm]⟩

theorem count_pause_steps_eq_zero (env : Env) (r n : Nat) (e : Event)
    (h1 : e ≠ Event.delay_ms step_size) (h2 : ∀ v, e ≠ Event.read_pulse_width v) :
    (pause_steps env r n).count e = 0 := by
  rw [List.count_eq_zero]
  intro hmem
  rcases mem_pause_steps env r n e hmem with h | ⟨v, h⟩
  · exact h1 h
  · exact h2 v h

/-! ## Theorems: `handle_lights` -/

/-- C3: with a radio present, when the width read is at least
`pulse_width_threshold + deadband` (96), the decision part of `handle_lights`
reads the width, drives `left_wing` and `right_wing` high and ends with
`lights_active` true; the call then runs `monitored_pause` (and the strobe burst
if the pause was not broken) and returns.  In the actions of the call each wing
light is driven high exactly once, neither is driven low, and `sleep_mode` is
not entered. -/
theorem handle_lights_turns_on (env : Env) (s : State)
    (h : pulse_width_threshold + deadband ≤ env.elapsed s.reads) :
    handle_lights_decide env true s =
        (true, pin_high right_wing (pin_high left_wing (read_pulse_width env s).2)) ∧
      ∃ ok m s' evs,
        monitored_pause env strobe_off_time (handle_lights_decide env true s).2 =
          some (ok, after_pause_steps env m (handle_lights_decide env true s).2) ∧
        handle_lights env true s = some s' ∧
        s' = (if ok then strobe_animate (after_pause_steps env m (handle_lights_decide env true s).2)
          else after_pause_steps env m (handle_lights_decide env true s).2) ∧
        s'.trace = s.trace ++ evs ∧
        evs.take 3 = [Event.read_pulse_width (env.elapsed s.reads),
          Event.pin_high left_wing, Event.pin_high right_wing] ∧
        evs.count (Event.pin_high left_wing) = 1 ∧
        evs.count (Event.pin_high right_wing) = 1 ∧
        evs.count (Event.pin_low left_wing) = 0 ∧
        evs.count (Event.pin_low right_wing) = 0 ∧
        evs.count Event.sleep_mode = 0 := by
  have hd : handle_lights_decide env true s =
      (true, pin_high right_wing (pin_high left_wing (read_pulse_width env s).2)) := by
    simp [handle_lights_decide, read_pulse_width, h]
  refine ⟨hd, ?_⟩
  obtain ⟨ok, m, hm⟩ := monitored_pause_total env (handle_lights_decide env true s).2
  have c1 := count_pause_steps_eq_zero env (s.reads + 1) m (Event.pin_high left_wing)
    (by simp) (by simp)
  have c2 := count_pause_steps_eq_zero env (s.reads + 1) m (Event.pin_high right_wing)
    (by simp) (by simp)
  have c3 := count_pause_steps_eq_zero env (s.reads + 1) m (Event.pin_low left_wing)
    (by simp) (by simp)
  have c4 := count_pause_steps_eq_zero env (s.reads + 1) m (Event.pin_low right_wing)
    (by simp) (by simp)
  have c5 := count_pause_steps_eq_zero env (s.reads + 1) m Event.sleep_mode
    (by simp) (by simp)
  cases ok with
  | true =>
    refine ⟨true, m, _, [Event.read_pulse_width (env.elapsed s.reads),
      Event.pin_high left_wing, Event.pin_high right_wing] ++ pause_steps env (s.reads + 1) m ++
      [Event.pin_high strobe_a, Event.delay_ms strobe_on_time, Event.pin_low strobe_a,
       Event.delay_ms strobe_on_time, Event.pin_high strobe_b, Event.delay_ms strobe_on_time,
       Event.pin_low strobe_b], hm, ?_, rfl, ?_, ?_, ?_, ?_, ?_, ?_, ?_⟩
    · simp only [handle_lights, hm]
      rw [hd]
      simp
    · rw [hd]
      simp [strobe_animate, after_pause_steps, pin_high, pin_low, delay_ms, read_pulse_width]
    · simp
    · simp only [List.count_append, c1]
      simp [List.count_cons, left_wing, right_wing, strobe_a, strobe_b, pin_init]
    · simp only [List.count_append, c2]
      simp [List.count_cons, left_wing, right_wing, strobe_a, strobe_b, pin_init]
    · simp only [List.count_append, c3]
      simp [List.count_cons, left_wing, right_wing, strobe_a, strobe_b, pin_init]
    · simp only [List.count_append, c4]
      simp [List.count_cons, left_wing, right_wing, strobe_a, strobe_b, pin_init]
    · simp only [List.count_append, c5]
      simp [List.count_cons, left_wing, right_wing, strobe_a, strobe_b, pin_init]
  | false =>
    refine ⟨false, m, _, [Event.read_pulse_width (env.elapsed s.reads),
      Event.pin_high left_wing, Event.pin_high right_wing] ++ pause_steps env (s.reads + 1) m,
      hm, ?_, rfl, ?_, ?_, ?_, ?_, ?_, ?_, ?_⟩
    · simp only [handle_lights, hm]
      rw [hd]
      simp
    · rw [hd]
      simp [after_pause_steps, pin_high, read_pulse_width]
    · simp
    · simp only [List.count_append, c1]
      simp [List.count_cons, left_wing, right_wing, strobe_a, strobe_b, pin_init]
    · simp only [List.count_append, c2]
      simp [List.count_cons, left_wing, right_wing, strobe_a, strobe_b, pin_init]
    · simp only [List.count_append, c3]
      simp [List.count_cons, left_wing, right_wing, strobe_a, strobe_b, pin_init]
    · simp only [List.count_append, c4]
      simp [List.count_cons, left_wing, right_wing, strobe_a, strobe_b, pin_init]
    · simp only [List.count_append, c5]
      simp [List.count_cons, left_wing, right_wing, strobe_a, strobe_b, pin_init]

/-- Witness for C3: the width read is exactly 96, from the reset state. -/
theorem handle_lights_turns_on_witness :
    pulse_width_threshold + deadband ≤ (Env.const 96 PINB_low).elapsed State.init.reads ∧
      handle_lights_decide (Env.const 96 PINB_low) true State.init =
        (true, pin_high right_wing (pin_high left_wing
          (read_pulse_width (Env.const 96 PINB_low) State.init).2)) ∧
      ∃ ok m s' evs,
        monitored_pause (Env.const 96 PINB_low) strobe_off_time
            (handle_lights_decide (Env.const 96 PINB_low) true State.init).2 =
          some (ok, after_pause_steps (Env.const 96 PINB_low) m
            (handle_lights_decide (Env.const 96 PINB_low) true State.init).2) ∧
        handle_lights (Env.const 96 PINB_low) true State.init = some s' ∧
        s' = (if ok then strobe_animate (after_pause_steps (Env.const 96 PINB_low) m
            (handle_lights_decide (Env.const 96 PINB_low) true State.init).2)
          else after_pause_steps (Env.const 96 PINB_low) m
            (handle_lights_decide (Env.const 96 PINB_low) true State.init).2) ∧
        s'.trace = State.init.trace ++ evs ∧
        evs.take 3 = [Event.read_pulse_width ((Env.const 96 PINB_low).elapsed State.init.reads),
          Event.pin_high left_wing, Event.pin_high right_wing] ∧
        evs.count (Event.pin_high left_wing) = 1 ∧
        evs.count (Event.pin_high right_wing) = 1 ∧
        evs.count (Event.pin_low left_wing) = 0 ∧
        evs.count (Event.pin_low right_wing) = 0 ∧
        evs.count Event.sleep_mode = 0 :=
  ⟨by decide, handle_lights_turns_on (Env.const 96 PINB_low) State.init (by decide)⟩

/-- C4 (the code at a failing input): the first call reads 96 and ends Active
(wing lights driven high, pause, strobe burst, no sleep); the next call reads
93, inside the dead zone, and ends with `lights_active` false: it drives no pin
and enters `sleep_mode`. -/
theorem handle_lights_dead_zone_after_active :
    handle_lights (Env.switch 20 96 93) true State.init =
        some (first_iteration (Env.switch 20 96 93)) ∧
      (handle_lights_decide (Env.switch 20 96 93) true State.init).1 = true ∧
      (first_iteration (Env.switch 20 96 93)).trace.count Event.sleep_mode = 0 ∧
      (Env.switch 20 96 93).elapsed (first_iteration (Env.switch 20 96 93)).reads = 93 ∧
      (handle_lights_decide (Env.switch 20 96 93) true
        (first_iteration (Env.switch 20 96 93))).1 = false ∧
      (handle_lights (Env.switch 20 96 93) true (first_iteration (Env.switch 20 96 93))).map
          (fun s => s.trace.drop (first_iteration (Env.switch 20 96 93)).trace.length) =
        some [Event.read_pulse_width 93, Event.sleep_mode] := by
  decide

/-- C5 (the code at a failing input): the first call reads 96 and ends Active;
the next call reads 50, below the threshold, and its only actions are the read
and `sleep_mode`: neither wing light is driven low, and both wing bits of
`PORTB` are still set afterwards. -/
theorem handle_lights_below_threshold_after_active :
    handle_lights (Env.switch 20 96 50) true State.init =
        some (first_iteration (Env.switch 20 96 50)) ∧
      (handle_lights_decide (Env.switch 20 96 50) true State.init).1 = true ∧
      (Env.switch 20 96 50).elapsed (first_iteration (Env.switch 20 96 50)).reads = 50 ∧
      (handle_lights (Env.switch 20 96 50) true (first_iteration (Env.switch 20 96 50))).map
          (fun s => s.trace.drop (first_iteration (Env.switch 20 96 50)).trace.length) =
        some [Event.read_pulse_width 50, Event.sleep_mode] ∧
      (handle_lights (Env.switch 20 96 50) true (first_iteration (Env.switch 20 96 50))).map
          (fun s => (s.trace.count (Event.pin_low left_wing),
            s.trace.count (Event.pin_low right_wing),
            pin_read_reg s.PORTB left_wing, pin_read_reg s.PORTB right_wing)) =
        some (0, 0, 1, 1) := by
  decide

/-- C6: without a radio, `handle_lights` drives both wing lights high, delays
1000 ms unconditionally and runs the strobe burst; it never copies `elapsed`,
never samples `PINB`, never sleeps, and the result is the same in every
environment. -/
theorem handle_lights_no_radio (env : Env) (s : State) :
    handle_lights env false s =
        some (strobe_animate (delay_ms strobe_off_time
          (pin_high right_wing (pin_high left_wing s)))) ∧
      (∃ s', handle_lights env false s = some s' ∧
        s'.trace = s.trace ++
          [Event.pin_high left_wing, Event.pin_high right_wing, Event.delay_ms 1000,
           Event.pin_high strobe_a, Event.delay_ms 60, Event.pin_low strobe_a,
           Event.delay_ms 60, Event.pin_high strobe_b, Event.delay_ms 60,
           Event.pin_low strobe_b] ∧
        s'.reads = s.reads ∧ s'.samples = s.samples) ∧
      ∀ env2 : Env, handle_lights env2 false s = handle_lights env false s := by
  have h : ∀ e : Env, handle_lights e false s =
      some (strobe_animate (delay_ms strobe_off_time
        (pin_high right_wing (pin_high left_wing s)))) := by
    intro e
    simp [handle_lights, handle_lights_decide]
  refine ⟨h env, ⟨_, h env, ?_, ?_, ?_⟩, fun env2 => by rw [h env2, h env]⟩
  · simp [strobe_animate, delay_ms, pin_high, pin_low, strobe_off_time, strobe_on_time]
  · simp [strobe_animate, delay_ms, pin_high, pin_low]
  · simp [strobe_animate, delay_ms, pin_high, pin_low]

/-! ## Theorems: `monitored_pause` -/

/-- C7 (the code at a failing input, step k = 20): the samples after steps
1..19 are 100 and the next value of `elapsed` is 50.  The pause takes 19 steps,
950 ms of delay, never takes a twentieth sample, and returns true (not broken);
`handle_lights` then runs the strobe burst. -/
theorem monitored_pause_step_20 :
    monitored_pause (Env.switch 19 100 50) 1000 State.init =
        some (true, after_pause_steps (Env.switch 19 100 50) 19 State.init) ∧
      total_delay (after_pause_steps (Env.switch 19 100 50) 19 State.init).trace = 950 ∧
      (after_pause_steps (Env.switch 19 100 50) 19 State.init).reads = 19 ∧
      (Env.switch 19 100 50).elapsed 19 = 50 ∧
      handle_lights (Env.switch 20 100 50) true State.init =
        some (strobe_animate (after_pause_steps (Env.switch 20 100 50) 19
          (handle_lights_decide (Env.switch 20 100 50) true State.init).2)) := by
  decide

/-- C8 (the code at a failing input): with `elapsed` constantly 100,
`monitored_pause(1000)` returns true after 19 steps of 50 ms, a total delay of
950 ms, and `handle_lights` then runs the strobe burst. -/
theorem monitored_pause_uninterrupted_950 :
    monitored_pause (Env.const 100 PINB_low) strobe_off_time State.init =
        some (true, after_pause_steps (Env.const 100 PINB_low) 19 State.init) ∧
      total_delay (after_pause_steps (Env.const 100 PINB_low) 19 State.init).trace = 950 ∧
      handle_lights (Env.const 100 PINB_low) true State.init =
        some (strobe_animate (after_pause_steps (Env.const 100 PINB_low) 19
          (handle_lights_decide (Env.const 100 PINB_low) true State.init).2)) := by
  decide

/-! ## Lemmas: the loop of `probe_for_radio` -/

theorem after_probe_sample_samples (env : Env) (data status_light : pin_t) (s : State) :
    (after_probe_sample env data status_light s).samples = s.samples + 1 := by
  simp [after_probe_sample, pin_read, pin_low, delay_ms, pin_high]

theorem after_probe_sample_trace (env : Env) (data status_light : pin_t) (s : State) :
    (after_probe_sample env data status_light s).trace =
      s.trace ++ [Event.pin_high status_light, Event.delay_ms 100, Event.pin_low status_light,
        Event.pin_read data (pin_read_reg (env.PINB s.samples) data)] := by
  simp [after_probe_sample, pin_read, pin_low, delay_ms, pin_high]

theorem after_probe_misses_samples (env : Env) (data status_light : pin_t) (n : Nat) :
    ∀ s : State, (after_probe_misses env data status_light n s).samples = s.samples + n := by
  induction n with
  | zero => intro s; simp [after_probe_misses]
  | succ n ih =>
    intro s
    simp only [after_probe_misses]
    rw [ih]
    simp [delay_ms, after_probe_sample_samples]
    omega

theorem after_probe_misses_trace (env : Env) (data status_light : pin_t) (n : Nat) :
    ∀ s : State, (after_probe_misses env data status_light n s).trace =
      s.trace ++ probe_misses env data status_light s.samples n := by
  induction n with
  | zero => intro s; simp [after_probe_misses, probe_misses]
  | succ n ih =>
    intro s
    simp only [after_probe_misses]
    rw [ih]
    simp [delay_ms, after_probe_sample_samples, after_probe_sample_trace, probe_misses,
      probe_miss]

/-- One unsuccessful attempt. -/
theorem probe_for_radio_loop_miss (env : Env) (data status_light : pin_t) (fuel l : Nat)
    (s : State) (hl : l < max_loops) (hv : pin_read_reg (env.PINB s.samples) data ≠ 0) :
    probe_for_radio_loop env data status_light (fuel + 1) false l s =
      probe_for_radio_loop env data status_light fuel false (l + 1)
        (delay_ms 900 (after_probe_sample env data status_light s)) := by
  have h256 : (l + 1) % 256 = l + 1 := by
    simp only [max_loops] at hl
    omega
  simp [probe_for_radio_loop, hl, after_probe_sample, pin_read, pin_low, delay_ms, pin_high,
    hv, h256]

/-- The successful attempt. -/
theorem probe_for_radio_loop_hit (env : Env) (data status_light : pin_t) (fuel l : Nat)
    (s : State) (hl : l < max_loops) (hv : pin_read_reg (env.PINB s.samples) data = 0) :
    probe_for_radio_loop env data status_light (fuel + 2) false l s =
      some (true, after_probe_sample env data status_light s) := by
  simp [probe_for_radio_loop, hl, after_probe_sample, pin_read, pin_low, delay_ms, pin_high, hv]

/-- The loop exits once `loops` has reached `max_loops`. -/
theorem probe_for_radio_loop_exhausted (env : Env) (data status_light : pin_t) (fuel : Nat)
    (s : State) :
    probe_for_radio_loop env data status_light (fuel + 1) false max_loops s = some (false, s) := by
  simp [probe_for_radio_loop]

/-- A run of `n` unsuccessful attempts. -/
theorem probe_for_radio_loop_misses (env : Env) (data status_light : pin_t) (n : Nat) :
    ∀ (fuel l : Nat) (s : State), l + n ≤ max_loops →
      (∀ i, i < n → pin_read_reg (env.PINB (s.samples + i)) data ≠ 0) →
      probe_for_radio_loop env data status_light (fuel + n) false l s =
        probe_for_radio_loop env data status_light fuel false (l + n)
          (after_probe_misses env data status_light n s) := by
  induction n with
  | zero => intro fuel l s _ _; simp [after_probe_misses]
  | succ n ih =>
    intro fuel l s hl hv
    have e1 : fuel + (n + 1) = (fuel + n) + 1 := by omega
    rw [e1, probe_for_radio_loop_miss env data status_light (fuel + n) l s (by omega)
      (by simpa using hv 0 (by omega))]
    rw [ih fuel (l + 1) _ (by omega) (by
      intro i hi
      have := hv (i + 1) (by omega)
      simpa [delay_ms, after_probe_sample_samples, Nat.add_assoc, Nat.add_comm 1 i] using this)]
    simp [after_probe_misses, Nat.add_assoc, Nat.add_comm 1 n]

/-- All ten samples are not low: the loop ends with `found` false after ten
unsuccessful attempts. -/
theorem probe_for_radio_loop_timeout (env : Env) (data status_light : pin_t) (s : State)
    (hv : ∀ i, i < max_loops → pin_read_reg (env.PINB (s.samples + i)) data ≠ 0) :
    probe_for_radio_loop env data status_light (max_loops + 1) false 0 s =
      some (false, after_probe_misses env data status_light max_loops s) := by
  have e1 : max_loops + 1 = 1 + max_loops := by omega
  rw [e1, probe_for_radio_loop_misses env data status_light max_loops 1 0 s (by omega) hv]
  simpa using probe_for_radio_loop_exhausted env data status_light 0 _

/-- The first low sample is the one after `k` unsuccessful attempts: the loop
ends with `found` true right after that sample. -/
theorem probe_for_radio_loop_found (env : Env) (data status_light : pin_t) (s : State) (k : Nat)
    (hk : k < max_loops)
    (hv : ∀ i, i < k → pin_read_reg (env.PINB (s.samples + i)) data ≠ 0)
    (h0 : pin_read_reg (env.PINB (s.samples + k)) data = 0) :
    probe_for_radio_loop env data status_light (max_loops + 1) false 0 s =
      some (true, after_probe_sample env data status_light
        (after_probe_misses env data status_light k s)) := by
  obtain ⟨f, hf⟩ : ∃ f, max_loops + 1 = (f + 2) + k := ⟨max_loops - 1 - k, by omega⟩
  rw [hf, probe_for_radio_loop_misses env data status_light k (f + 2) 0 s (by omega) hv]
  rw [probe_for_radio_loop_hit env data status_light f (0 + k) _ (by omega)
    (by rw [after_probe_misses_samples]; exact h0)]

theorem probe_misses_all_high (env : Env) (data status_light : pin_t) (n : Nat) :
    ∀ r : Nat, (∀ i, i < n → pin_read_reg (env.PINB (r + i)) data = 1) →
      probe_misses env data status_light r n =
        (List.replicate n (probe_miss data status_light 1)).flatten := by
  induction n with
  | zero => intro r _; simp [probe_misses]
  | succ n ih =>
    intro r h
    have h0 : pin_read_reg (env.PINB r) data = 1 := by simpa using h 0 (by omega)
    rw [probe_misses, h0, ih (r + 1) (by
      intro i hi
      have := h (i + 1) (by omega)
      simpa [Nat.add_assoc, Nat.add_comm 1 i] using this)]
    simp [List.replicate_succ]

theorem count_probe_misses (env : Env) (data status_light : pin_t) (n : Nat) :
    ∀ r : Nat,
      (probe_misses env data status_light r n).count (Event.delay_ms 100) = n ∧
      (probe_misses env data status_light r n).count (Event.delay_ms 900) = n := by
  induction n with
  | zero => intro r; simp [probe_misses]
  | succ n ih =>
    intro r
    obtain ⟨h1, h2⟩ := ih (r + 1)
    simp [probe_misses, probe_miss, List.count_cons, h1, h2]

/-! ## Theorems: `probe_for_radio` -/

/-- C9: if the data line reads high at each of the ten samples, `probe_for_radio`
returns false after exactly ten attempts, each being status light high, 100 ms,
status light low, one sample, 900 ms; the delays add up to 10 * 1000 ms, and
after the initial `pin_high(data)` no `pin_low(data)` is executed. -/
theorem probe_for_radio_timeout (env : Env) (data status_light : pin_t) (s : State)
    (hne : status_light ≠ data)
    (h : ∀ i, i < 10 → pin_read_reg (env.PINB (s.samples + i)) data = 1) :
    ∃ s' evs, probe_for_radio env data status_light s = some (false, s') ∧
      s'.trace = s.trace ++ evs ∧
      evs = Event.pin_high data :: (List.replicate 10 (probe_miss data status_light 1)).flatten ∧
      s'.samples = s.samples + 10 ∧
      total_delay evs = 10 * 1000 ∧
      evs.count (Event.pin_low data) = 0 := by
  have hv : ∀ i, i < max_loops →
      pin_read_reg (env.PINB ((pin_high data s).samples + i)) data ≠ 0 := by
    intro i hi
    have := h i hi
    simp only [pin_high]
    omega
  have hrun := probe_for_radio_loop_timeout env data status_light (pin_high data s) hv
  have hne2 : ¬ data = status_light := fun e => hne e.symm
  refine ⟨after_probe_misses env data status_light max_loops (pin_high data s), _,
    ?_, ?_, rfl, ?_, ?_, ?_⟩
  · simp [probe_for_radio, hrun]
  · rw [after_probe_misses_trace, show max_loops = 10 from rfl,
      probe_misses_all_high env data status_light 10 (pin_high data s).samples h]
    simp [pin_high]
  · rw [after_probe_misses_samples]
    simp [pin_high, max_loops]
  · simp [List.replicate, probe_miss, total_delay]
  · simp [List.replicate, probe_miss, List.count_cons, hne2]

/-- Witness for C9: `PINB` always reads 255, probing `data` with `left_wing` as
the status light (the call made by `main`), from the reset state. -/
theorem probe_for_radio_timeout_witness :
    ∃ s' evs, probe_for_radio (Env.const 0 255) data left_wing State.init = some (false, s') ∧
      s'.trace = State.init.trace ++ evs ∧
      evs = Event.pin_high data :: (List.replicate 10 (probe_miss data left_wing 1)).flatten ∧
      s'.samples = State.init.samples + 10 ∧
      total_delay evs = 10 * 1000 ∧
      evs.count (Event.pin_low data) = 0 :=
  probe_for_radio_timeout (Env.const 0 255) data left_wing State.init (by decide)
    (fun _ _ => by show pin_read_reg 255 data = 1; decide)

/-- C10: `probe_for_radio` always returns, and returns true exactly when one of
the first ten samples of the data line reads low.  When the first low sample is
the `k`-th (`1 ≤ k ≤ 10`), the call consists of `pin_high(data)`, `k - 1`
unsuccessful attempts, the successful attempt (without a 900 ms wait) and then
`pin_low(data)`: `k` samples, `k` delays of 100 ms and `k - 1` delays of 900 ms. -/
theorem probe_for_radio_found (env : Env) (data status_light : pin_t) (s : State) :
    (∃ found s', probe_for_radio env data status_light s = some (found, s') ∧
      (found = true ↔ ∃ i, i < 10 ∧ pin_read_reg (env.PINB (s.samples + i)) data = 0)) ∧
    ∀ k, 1 ≤ k → k ≤ 10 →
      (∀ i, i < k - 1 → pin_read_reg (env.PINB (s.samples + i)) data ≠ 0) →
      pin_read_reg (env.PINB (s.samples + (k - 1))) data = 0 →
      ∃ s' evs, probe_for_radio env data status_light s = some (true, s') ∧
        s'.trace = s.trace ++ evs ∧
        evs = Event.pin_high data :: (probe_misses env data status_light s.samples (k - 1) ++
          probe_hit data status_light ++ [Event.pin_low data]) ∧
        s'.samples = s.samples + k ∧
        evs.count (Event.delay_ms 100) = k ∧
        evs.count (Event.delay_ms 900) = k - 1 ∧
        evs.getLast? = some (Event.pin_low data) := by
  have part2 : ∀ k, 1 ≤ k → k ≤ 10 →
      (∀ i, i < k - 1 → pin_read_reg (env.PINB (s.samples + i)) data ≠ 0) →
      pin_read_reg (env.PINB (s.samples + (k - 1))) data = 0 →
      ∃ s' evs, probe_for_radio env data status_light s = some (true, s') ∧
        s'.trace = s.trace ++ evs ∧
        evs = Event.pin_high data :: (probe_misses env data status_light s.samples (k - 1) ++
          probe_hit data status_light ++ [Event.pin_low data]) ∧
        s'.samples = s.samples + k ∧
        evs.count (Event.delay_ms 100) = k ∧
        evs.count (Event.delay_ms 900) = k - 1 ∧
        evs.getLast? = some (Event.pin_low data) := by
    intro k hk1 hk10 hv h0
    have hrun := probe_for_radio_loop_found env data status_light (pin_high data s) (k - 1)
      (by simp only [max_loops]; omega) (by simpa [pin_high] using hv)
      (by simpa [pin_high] using h0)
    obtain ⟨c1, c2⟩ := count_probe_misses env data status_light (k - 1) s.samples
    refine ⟨pin_low data (after_probe_sample env data status_light
      (after_probe_misses env data status_light (k - 1) (pin_high data s))), _,
      ?_, ?_, rfl, ?_, ?_, ?_, ?_⟩
    · simp [probe_for_radio, hrun]
    · simp only [pin_low, after_probe_sample_trace, after_probe_misses_trace,
        after_probe_misses_samples]
      simp [pin_high, probe_hit, h0]
    · simp only [pin_low, after_probe_sample_samples, after_probe_misses_samples]
      simp only [pin_high]
      omega
    · simp only [List.count_cons, List.count_append, c1]
      simp [probe_hit, List.count_cons]
      omega
    · simp only [List.count_cons, List.count_append, c2]
      simp [probe_hit, List.count_cons]
    · simp [List.getLast?_cons, List.getLast?_append]
  refine ⟨?_, part2⟩
  by_cases hex : ∃ i, i < 10 ∧ pin_read_reg (env.PINB (s.samples + i)) data = 0
  · classical
    have hmin : ∀ m, m < Nat.find hex →
        ¬ (m < 10 ∧ pin_read_reg (env.PINB (s.samples + m)) data = 0) :=
      fun m hm => Nat.find_min hex hm
    obtain ⟨hlt, hz⟩ := Nat.find_spec hex
    obtain ⟨s', _, hs', _⟩ := part2 (Nat.find hex + 1) (by omega) (by omega)
      (by
        intro i hi hzero
        exact hmin i (by omega) ⟨by omega, hzero⟩)
      (by simpa using hz)
    exact ⟨true, s', hs', by simpa using hex⟩
  · have hv : ∀ i, i < max_loops →
        pin_read_reg (env.PINB ((pin_high data s).samples + i)) data ≠ 0 := by
      intro i hi hzero
      exact hex ⟨i, hi, by simpa [pin_high] using hzero⟩
    have hrun := probe_for_radio_loop_timeout env data status_light (pin_high data s) hv
    refine ⟨false, after_probe_misses env data status_light max_loops (pin_high data s),
      ?_, by simpa using hex⟩
    simp [probe_for_radio, hrun]

/-- Witness for C10: the data line reads high three times and low at the fourth
sample (`k = 4`), probing `data` with `left_wing` as the status light. -/
theorem probe_for_radio_found_witness :
    ∃ s' evs, probe_for_radio (Env.low_after 3) data left_wing State.init = some (true, s') ∧
      s'.trace = State.init.trace ++ evs ∧
      evs = Event.pin_high data ::
        (probe_misses (Env.low_after 3) data left_wing State.init.samples (4 - 1) ++
          probe_hit data left_wing ++ [Event.pin_low data]) ∧
      s'.samples = State.init.samples + 4 ∧
      evs.count (Event.delay_ms 100) = 4 ∧
      evs.count (Event.delay_ms 900) = 4 - 1 ∧
      evs.getLast? = some (Event.pin_low data) :=
  (probe_for_radio_found (Env.low_after 3) data left_wing State.init).2 4 (by decide) (by decide)
    (by decide) (by decide)

/-! ## Further facts about `monitored_pause(1000)` -/

/-- For `1 ≤ k ≤ 19`: if the samples after steps `1..k-1` are at or above the
threshold and the sample after step `k` is below it, `monitored_pause(1000)`
returns false after `k` steps, `k * 50` ms of delay. -/
theorem monitored_pause_early_exit (env : Env) (s : State) (k : Nat) (hk1 : 1 ≤ k)
    (hk19 : k ≤ 19)
    (hw : ∀ i, i < k - 1 → pulse_width_threshold ≤ env.elapsed (s.reads + i))
    (hlt : env.elapsed (s.reads + (k - 1)) < pulse_width_threshold) :
    monitored_pause env strobe_off_time s = some (false, after_pause_steps env k s) ∧
      total_delay (pause_steps env s.reads k) = k * step_size := by
  obtain ⟨j, rfl⟩ : ∃ j, k = j + 1 := ⟨k - 1, by omega⟩
  have hrun := monitored_pause_loop_stop env j (strobe_off_time + 2) (strobe_off_time % 65536) s
    (by decide) (by simp only [strobe_off_time]; omega)
    (by simp only [strobe_off_time, step_size]; omega) (by simpa using hw) (by simpa using hlt)
  refine ⟨by simp [monitored_pause, hrun], ?_⟩
  rw [total_delay_pause_steps, Nat.mul_comm]

/-- If the first 19 samples are all at or above the threshold,
`monitored_pause(1000)` returns true after 19 steps, 950 ms of delay. -/
theorem monitored_pause_uninterrupted (env : Env) (s : State)
    (hw : ∀ i, i < 19 → pulse_width_threshold ≤ env.elapsed (s.reads + i)) :
    monitored_pause env strobe_off_time s = some (true, after_pause_steps env 19 s) ∧
      total_delay (pause_steps env s.reads 19) = 950 := by
  have hrun := monitored_pause_loop_run env 19 (strobe_off_time + 2) (strobe_off_time % 65536) s
    (by decide) (by decide) (by decide) (by decide) hw
  refine ⟨by simp [monitored_pause, hrun], ?_⟩
  rw [total_delay_pause_steps]
  rfl

/-! ## Theorems: `strobe_animate` -/

/-- C11 (as stated, at the reset state): the actions of `strobe_animate` are not
the eight-action sequence with a 60 ms delay after `strobe_b` goes low; there
are three delays of 60 ms, 180 ms in total, and the last action is
`pin_low(strobe_b)`. -/
theorem strobe_animate_not_four_delays :
    (strobe_animate State.init).trace ≠
        [Event.pin_high strobe_a, Event.delay_ms 60, Event.pin_low strobe_a, Event.delay_ms 60,
         Event.pin_high strobe_b, Event.delay_ms 60, Event.pin_low strobe_b, Event.delay_ms 60] ∧
      (strobe_animate State.init).trace.count (Event.delay_ms 60) = 3 ∧
      total_delay (strobe_animate State.init).trace = 180 ∧
      (strobe_animate State.init).trace.getLast? = some (Event.pin_low strobe_b) := by
  decide

/-- C11 (amended): `strobe_animate` performs exactly `strobe_a` high, 60 ms,
`strobe_a` low, 60 ms, `strobe_b` high, 60 ms, `strobe_b` low: three delays of
60 ms, 180 ms in total, and it returns right after driving `strobe_b` low. -/
theorem strobe_animate_trace (s : State) :
    (strobe_animate s).trace = s.trace ++
        [Event.pin_high strobe_a, Event.delay_ms 60, Event.pin_low strobe_a, Event.delay_ms 60,
         Event.pin_high strobe_b, Event.delay_ms 60, Event.pin_low strobe_b] ∧
      total_delay [Event.pin_high strobe_a, Event.delay_ms 60, Event.pin_low strobe_a,
         Event.delay_ms 60, Event.pin_high strobe_b, Event.delay_ms 60,
         Event.pin_low strobe_b] = 180 ∧
      (strobe_animate s).reads = s.reads ∧ (strobe_animate s).samples = s.samples := by
  refine ⟨?_, ?_, ?_, ?_⟩
  · simp [strobe_animate, delay_ms, pin_high, pin_low, strobe_on_time]
  · simp [total_delay]
  · simp [strobe_animate, delay_ms, pin_high, pin_low]
  · simp [strobe_animate, delay_ms, pin_high, pin_low]

/-! ## Theorems: the capture handler over interrupt sequences -/

/-- A rising-edge interrupt only records the start. -/
theorem PCINT0_vect_rising (P t : Nat) (c : Capture) (h : pin_read_reg P data = 1) :
    PCINT0_vect P t c = { c with clock_start := t % 256 } := by
  simp [PCINT0_vect, h]

/-- A falling-edge interrupt leaves the recorded start as it was. -/
theorem PCINT0_vect_falling_start (P t : Nat) (c : Capture) (h : pin_read_reg P data ≠ 1) :
    (PCINT0_vect P t c).clock_start = c.clock_start := by
  simp only [PCINT0_vect, h, if_false]
  split <;> rfl

theorem run_interrupts_append (xs ys : List (Nat × Nat)) (c : Capture) :
    run_interrupts (xs ++ ys) c = run_interrupts ys (run_interrupts xs c) := by
  simp [run_interrupts, List.foldl_append]

/-- Rising-edge interrupts alone never change `elapsed`. -/
theorem run_interrupts_rising_elapsed (xs : List (Nat × Nat)) :
    ∀ c : Capture, (∀ x ∈ xs, pin_read_reg x.1 data = 1) →
      (run_interrupts xs c).elapsed = c.elapsed := by
  induction xs with
  | nil => intro c _; rfl
  | cons x xs ih =>
    intro c h
    have hx : pin_read_reg x.1 data = 1 := h x (List.mem_cons_self _ _)
    have hstep : run_interrupts (x :: xs) c = run_interrupts xs (PCINT0_vect x.1 x.2 c) := rfl
    rw [hstep, ih _ (fun y hy => h y (List.mem_cons_of_mem _ hy)), PCINT0_vect_rising _ _ _ hx]

/-- C12: for every interrupt schedule, `read_pulse_width` returns the `elapsed`
left by the interrupts handled so far: 0 if none of them was a falling edge, and
otherwise the width the handler computed at the most recent falling edge.  A
rising-edge interrupt changes `clock_start` only, a falling-edge interrupt
leaves `clock_start` unchanged, and `read_pulse_width` changes neither the
output registers nor `elapsed`: a second copy with no interrupt in between
returns the same value. -/
theorem read_pulse_width_last_falling_edge (irqs : Nat → List (Nat × Nat)) (pinb : Nat → Nat)
    (s : State) :
    (∀ P t c, pin_read_reg P data = 1 →
        PCINT0_vect P t c = { c with clock_start := t % 256 } ∧
        (PCINT0_vect P t c).elapsed = c.elapsed) ∧
      (∀ P t c, pin_read_reg P data ≠ 1 → (PCINT0_vect P t c).clock_start = c.clock_start) ∧
      (read_pulse_width (Env.of_interrupts irqs pinb) s).1 =
        (run_interrupts (irqs s.reads) Capture.init).elapsed ∧
      ((∀ x ∈ irqs s.reads, pin_read_reg x.1 data = 1) →
        (read_pulse_width (Env.of_interrupts irqs pinb) s).1 = 0) ∧
      (∀ pre e post, irqs s.reads = pre ++ e :: post → pin_read_reg e.1 data ≠ 1 →
        (∀ x ∈ post, pin_read_reg x.1 data = 1) →
        (read_pulse_width (Env.of_interrupts irqs pinb) s).1 =
          (PCINT0_vect e.1 e.2 (run_interrupts pre Capture.init)).elapsed) ∧
      (read_pulse_width (Env.of_interrupts irqs pinb) s).2.PORTB = s.PORTB ∧
      (read_pulse_width (Env.of_interrupts irqs pinb) s).2.DDRB = s.DDRB ∧
      (irqs (s.reads + 1) = irqs s.reads →
        (read_pulse_width (Env.of_interrupts irqs pinb)
            (read_pulse_width (Env.of_interrupts irqs pinb) s).2).1 =
          (read_pulse_width (Env.of_interrupts irqs pinb) s).1) := by
  refine ⟨?_, PCINT0_vect_falling_start, rfl, ?_, ?_, rfl, rfl, ?_⟩
  · intro P t c h
    rw [PCINT0_vect_rising P t c h]
    exact ⟨rfl, rfl⟩
  · intro h
    show (run_interrupts (irqs s.reads) Capture.init).elapsed = 0
    rw [run_interrupts_rising_elapsed _ _ h]
    rfl
  · intro pre e post hsplit _ hpost
    show (run_interrupts (irqs s.reads) Capture.init).elapsed = _
    rw [hsplit, run_interrupts_append]
    have hstep : run_interrupts (e :: post) (run_interrupts pre Capture.init) =
        run_interrupts post (PCINT0_vect e.1 e.2 (run_interrupts pre Capture.init)) := rfl
    rw [hstep, run_interrupts_rising_elapsed _ _ hpost]
  · intro h
    show (run_interrupts (irqs (s.reads + 1)) Capture.init).elapsed =
      (run_interrupts (irqs s.reads) Capture.init).elapsed
    rw [h]

/-- C14: for 8-bit counter values `stop < start`, a rising edge at `start`
followed by a falling edge at `stop` publishes `(255 - start) + stop`; that
value is below 255, so the 8-bit store keeps it, and it is exactly one less
than the forward distance `(stop - start) mod 256`. -/
theorem capture_pulse_wrap_off_by_one (hi lo start stop : Nat) (c : Capture)
    (hhi : pin_read_reg hi data = 1) (hlo : pin_read_reg lo data = 0)
    (hstart : start < 256) (h : stop < start) :
    (capture_pulse hi lo start stop c).elapsed = (255 - start) + stop ∧
      (255 - start) + stop < 255 ∧
      ((capture_pulse hi lo start stop c).elapsed : Int) + 1 = ((stop : Int) - start) % 256 ∧
      (capture_pulse hi lo start stop c).elapsed + 1 = (stop + 256 - start) % 256 := by
  have h1 : start % 256 = start := Nat.mod_eq_of_lt hstart
  have h2 : stop % 256 = stop := Nat.mod_eq_of_lt (by omega)
  have h3 : ((255 - start) + stop) % 256 = (255 - start) + stop := Nat.mod_eq_of_lt (by omega)
  have he : (capture_pulse hi lo start stop c).elapsed = (255 - start) + stop := by
    simp [capture_pulse, PCINT0_vect, hhi, hlo, h1, h2, h3, h]
  rw [he]
  refine ⟨rfl, by omega, by omega, by omega⟩

/-- Witness for C14: start 250, stop 10. -/
theorem capture_pulse_wrap_off_by_one_witness :
    (capture_pulse PINB_high PINB_low 250 10 Capture.init).elapsed = (255 - 250) + 10 ∧
      (255 - 250) + 10 < 255 ∧
      ((capture_pulse PINB_high PINB_low 250 10 Capture.init).elapsed : Int) + 1 =
        (((10 : Nat) : Int) - (250 : Nat)) % 256 ∧
      (capture_pulse PINB_high PINB_low 250 10 Capture.init).elapsed + 1 =
        (10 + 256 - 250) % 256 :=
  capture_pulse_wrap_off_by_one PINB_high PINB_low 250 10 Capture.init (by decide) (by decide)
    (by decide) (by decide)

/-! ## Lemmas: bits of the pin registers -/

theorem testBit_pin_high_reg (port : Nat) (pin : pin_t) (i : Nat) :
    (pin_high_reg port pin).testBit i =
      (decide (i < 8) && (port.testBit i || decide (pin.position = i))) := by
  have h : (256 : Nat) = 2 ^ 8 := rfl
  simp only [pin_high_reg, _BV, Nat.one_shiftLeft, h, Nat.testBit_mod_two_pow, Nat.testBit_or,
    Nat.testBit_two_pow]

theorem testBit_pin_low_reg (port : Nat) (pin : pin_t) (i : Nat) :
    (pin_low_reg port pin).testBit i =
      (decide (i < 8) && (port.testBit i && !decide (pin.position = i))) := by
  have h : (256 : Nat) = 2 ^ 8 := rfl
  have h16 : (65535 : Nat) = 2 ^ 16 - 1 := rfl
  simp only [pin_low_reg, _BV, Nat.one_shiftLeft, h, h16, Nat.testBit_mod_two_pow,
    Nat.testBit_and, Nat.testBit_xor, Nat.testBit_two_pow, Nat.testBit_two_pow_sub_one]
  by_cases h8 : i < 8
  · have : i < 16 := by omega
    simp [h8, this]
  · simp [h8]

theorem testBit_of_lt_256 (port i : Nat) (hp : port < 256) (hi : ¬ i < 8) :
    port.testBit i = false := by
  apply Nat.testBit_lt_two_pow
  calc port < 2 ^ 8 := hp
    _ ≤ 2 ^ i := Nat.pow_le_pow_right (by decide) (by omega)

theorem pin_read_reg_eq (pinreg : Nat) (pin : pin_t) :
    pin_read_reg pinreg pin = pinreg / 2 ^ pin.position % 2 := by
  have hr : pinreg / 2 ^ pin.position % 2 = (pinreg >>> pin.position) % 2 ^ 1 := by
    rw [Nat.shiftRight_eq_div_pow, Nat.pow_one]
  rw [hr]
  apply Nat.eq_of_testBit_eq
  intro i
  rw [pin_read_reg, _BV, Nat.one_shiftLeft, Nat.testBit_shiftRight, Nat.testBit_and,
    Nat.testBit_two_pow, Nat.testBit_mod_two_pow, Nat.testBit_shiftRight]
  by_cases hi : i = 0
  · subst hi
    simp
  · have : ¬ i < 1 := by omega
    have h3 : ¬ pin.position = pin.position + i := by omega
    simp [this, h3]

theorem strobe_animate_PORTB (s : State) :
    (strobe_animate s).PORTB =
      pin_low_reg (pin_high_reg (pin_low_reg (pin_high_reg s.PORTB strobe_a) strobe_a)
        strobe_b) strobe_b := by
  simp [strobe_animate, delay_ms, pin_high, pin_low]

theorem strobe_animate_testBit (s : State) (i : Nat) (h2 : i ≠ 2) (h4 : i ≠ 4) :
    (strobe_animate s).PORTB.testBit i = (decide (i < 8) && s.PORTB.testBit i) := by
  have e2 : ¬ strobe_a.position = i := fun e => h2 (by rw [← e]; rfl)
  have e4 : ¬ strobe_b.position = i := fun e => h4 (by rw [← e]; rfl)
  rw [strobe_animate_PORTB]
  simp only [testBit_pin_low_reg, testBit_pin_high_reg, e2, e4]
  cases decide (i < 8) <;> simp

/-! ## Theorems: pin.h -/

/-- C15: for every content of the pin register and every bit position,
`pin_read` returns the bit of the register at that position: 1 when it is set,
0 when it is clear.  So the result is 0 or 1, `== 1` holds exactly when `== 0`
fails, and the handler takes its rising-edge branch exactly when the data line
does not read 0. -/
theorem pin_read_reg_bit (pinreg position : Nat) :
    pin_read_reg pinreg ⟨position⟩ = (if pinreg.testBit position then 1 else 0) ∧
      pin_read_reg pinreg ⟨position⟩ = pinreg / 2 ^ position % 2 ∧
      (pin_read_reg pinreg ⟨position⟩ = 0 ∨ pin_read_reg pinreg ⟨position⟩ = 1) ∧
      (pin_read_reg pinreg ⟨position⟩ = 1 ↔ ¬ pin_read_reg pinreg ⟨position⟩ = 0) ∧
      (∀ t c, ¬ pin_read_reg pinreg data = 0 →
        PCINT0_vect pinreg t c = { c with clock_start := t % 256 }) ∧
      (∀ t c, pin_read_reg pinreg data = 0 →
        (PCINT0_vect pinreg t c).clock_start = c.clock_start) := by
  have hdiv := pin_read_reg_eq pinreg ⟨position⟩
  have hdata := pin_read_reg_eq pinreg data
  have hbit : pinreg.testBit position = decide (pinreg / 2 ^ position % 2 = 1) :=
    Nat.testBit_to_div_mod
  simp only at hdiv
  refine ⟨?_, hdiv, ?_, ?_, ?_, ?_⟩
  · rw [hbit, hdiv]
    by_cases h : pinreg / 2 ^ position % 2 = 1
    · simp [h]
    · have h0 : pinreg / 2 ^ position % 2 = 0 := by omega
      simp [h0]
  · rw [hdiv]
    omega
  · rw [hdiv]
    omega
  · intro t c h
    exact PCINT0_vect_rising pinreg t c (by omega)
  · intro t c h
    exact PCINT0_vect_falling_start pinreg t c (by omega)

/-- C16: for an 8-bit port register and a position in `0..7`, `pin_high` sets
the bit at the position, `pin_low` clears it, and neither changes any other
bit; both are idempotent, and `pin_low` after `pin_high` (or the reverse) gives
the register of the last operation alone.  So `strobe_animate` leaves the wing
light bits (0, 1) and the data pull-up bit (3) of `PORTB` as they were. -/
theorem pin_high_low_own_bit (port : Nat) (pin : pin_t) (hport : port < 256)
    (hpos : pin.position < 8) :
    (pin_high_reg port pin).testBit pin.position = true ∧
      (pin_low_reg port pin).testBit pin.position = false ∧
      (∀ i, i ≠ pin.position → (pin_high_reg port pin).testBit i = port.testBit i) ∧
      (∀ i, i ≠ pin.position → (pin_low_reg port pin).testBit i = port.testBit i) ∧
      pin_high_reg port pin < 256 ∧ pin_low_reg port pin < 256 ∧
      pin_high_reg (pin_high_reg port pin) pin = pin_high_reg port pin ∧
      pin_low_reg (pin_low_reg port pin) pin = pin_low_reg port pin ∧
      pin_low_reg (pin_high_reg port pin) pin = pin_low_reg port pin ∧
      pin_high_reg (pin_low_reg port pin) pin = pin_high_reg port pin ∧
      ∀ s : State, s.PORTB = port →
        (strobe_animate s).PORTB.testBit right_wing.position =
          port.testBit right_wing.position ∧
        (strobe_animate s).PORTB.testBit left_wing.position =
          port.testBit left_wing.position ∧
        (strobe_animate s).PORTB.testBit data.position = port.testBit data.position ∧
        ∀ i, i ≠ strobe_a.position → i ≠ strobe_b.position →
          (strobe_animate s).PORTB.testBit i = port.testBit i := by
  have hframe : ∀ i, (decide (i < 8) && port.testBit i) = port.testBit i := by
    intro i
    by_cases h8 : i < 8
    · simp [h8]
    · simp [h8, testBit_of_lt_256 port i hport h8]
  have hstrobe : ∀ s : State, s.PORTB = port → ∀ i, i ≠ 2 → i ≠ 4 →
      (strobe_animate s).PORTB.testBit i = port.testBit i := by
    intro s hs i h2 h4
    rw [strobe_animate_testBit s i h2 h4, hs, hframe]
  refine ⟨?_, ?_, ?_, ?_, ?_, ?_, ?_, ?_, ?_, ?_, ?_⟩
  · simp [testBit_pin_high_reg, hpos]
  · simp [testBit_pin_low_reg]
  · intro i hi
    have : ¬ pin.position = i := fun e => hi e.symm
    rw [testBit_pin_high_reg]
    simp only [this, decide_False, Bool.or_false]
    exact hframe i
  · intro i hi
    have : ¬ pin.position = i := fun e => hi e.symm
    rw [testBit_pin_low_reg]
    simp only [this, decide_False, Bool.not_false, Bool.and_true]
    exact hframe i
  · exact Nat.mod_lt _ (by decide)
  · exact Nat.mod_lt _ (by decide)
  · apply Nat.eq_of_testBit_eq
    intro i
    simp only [testBit_pin_high_reg]
    cases decide (i < 8) <;> cases port.testBit i <;> cases decide (pin.position = i) <;> rfl
  · apply Nat.eq_of_testBit_eq
    intro i
    simp only [testBit_pin_low_reg]
    cases decide (i < 8) <;> cases port.testBit i <;> cases decide (pin.position = i) <;> rfl
  · apply Nat.eq_of_testBit_eq
    intro i
    simp only [testBit_pin_low_reg, testBit_pin_high_reg]
    cases decide (i < 8) <;> cases port.testBit i <;> cases decide (pin.position = i) <;> rfl
  · apply Nat.eq_of_testBit_eq
    intro i
    simp only [testBit_pin_low_reg, testBit_pin_high_reg]
    cases decide (i < 8) <;> cases port.testBit i <;> cases decide (pin.position = i) <;> rfl
  · intro s hs
    exact ⟨hstrobe s hs 0 (by decide) (by decide), hstrobe s hs 1 (by decide) (by decide),
      hstrobe s hs 3 (by decide) (by decide), fun i h2 h4 => hstrobe s hs i h2 h4⟩

/-- Witness for C16: port register `0b00010101`, pin `strobe_a` (bit 2). -/
theorem pin_high_low_own_bit_witness :
    (pin_high_reg 21 strobe_a).testBit strobe_a.position = true ∧
      (pin_low_reg 21 strobe_a).testBit strobe_a.position = false ∧
      (∀ i, i ≠ strobe_a.position → (pin_high_reg 21 strobe_a).testBit i = Nat.testBit 21 i) ∧
      (∀ i, i ≠ strobe_a.position → (pin_low_reg 21 strobe_a).testBit i = Nat.testBit 21 i) ∧
      pin_high_reg 21 strobe_a < 256 ∧ pin_low_reg 21 strobe_a < 256 ∧
      pin_high_reg (pin_high_reg 21 strobe_a) strobe_a = pin_high_reg 21 strobe_a ∧
      pin_low_reg (pin_low_reg 21 strobe_a) strobe_a = pin_low_reg 21 strobe_a ∧
      pin_low_reg (pin_high_reg 21 strobe_a) strobe_a = pin_low_reg 21 strobe_a ∧
      pin_high_reg (pin_low_reg 21 strobe_a) strobe_a = pin_high_reg 21 strobe_a ∧
      ∀ s : State, s.PORTB = 21 →
        (strobe_animate s).PORTB.testBit right_wing.position =
          Nat.testBit 21 right_wing.position ∧
        (strobe_animate s).PORTB.testBit left_wing.position =
          Nat.testBit 21 left_wing.position ∧
        (strobe_animate s).PORTB.testBit data.position = Nat.testBit 21 data.position ∧
        ∀ i, i ≠ strobe_a.position → i ≠ strobe_b.position →
          (strobe_animate s).PORTB.testBit i = Nat.testBit 21 i :=
  pin_high_low_own_bit 21 strobe_a (by decide) (by decide)

/-! ## Lemmas: one call of `handle_lights` -/

theorem strobe_animate_events (s : State) :
    (strobe_animate s).trace = s.trace ++ strobe_events := by
  simp [strobe_events, strobe_animate, delay_ms, pin_high, pin_low, State.init]

theorem handle_lights_without_radio (env : Env) (s : State) :
    handle_lights env false s =
      some (strobe_animate (delay_ms strobe_off_time
        (pin_high right_wing (pin_high left_wing s)))) := by
  simp [handle_lights, handle_lights_decide]

theorem handle_lights_decide_on (env : Env) (s : State)
    (h : pulse_width_threshold + deadband ≤ env.elapsed s.reads) :
    handle_lights_decide env true s =
      (true, pin_high right_wing (pin_high left_wing (read_pulse_width env s).2)) := by
  simp [handle_lights_decide, read_pulse_width, h]

theorem handle_lights_decide_off (env : Env) (s : State)
    (h : env.elapsed s.reads < pulse_width_threshold + deadband) :
    handle_lights_decide env true s = (false, (read_pulse_width env s).2) := by
  have h1 : ¬ pulse_width_threshold + deadband ≤ env.elapsed s.reads := by omega
  by_cases h2 : env.elapsed s.reads < pulse_width_threshold
  · simp [handle_lights_decide, read_pulse_width, h1, h2]
  · simp [handle_lights_decide, read_pulse_width, h1, h2]

theorem handle_lights_off (env : Env) (s : State)
    (h : env.elapsed s.reads < pulse_width_threshold + deadband) :
    handle_lights env true s = some (sleep_mode (read_pulse_width env s).2) := by
  simp only [handle_lights]
  rw [handle_lights_decide_off env s h]
  simp

theorem handle_lights_on (env : Env) (s : State) (ok : Bool) (m : Nat)
    (h : pulse_width_threshold + deadband ≤ env.elapsed s.reads)
    (hm : monitored_pause env strobe_off_time
        (pin_high right_wing (pin_high left_wing (read_pulse_width env s).2)) =
      some (ok, after_pause_steps env m
        (pin_high right_wing (pin_high left_wing (read_pulse_width env s).2)))) :
    handle_lights env true s =
      some (if ok then strobe_animate (after_pause_steps env m
          (pin_high right_wing (pin_high left_wing (read_pulse_width env s).2)))
        else after_pause_steps env m
          (pin_high right_wing (pin_high left_wing (read_pulse_width env s).2))) := by
  simp only [handle_lights]
  rw [handle_lights_decide_on env s h]
  simp only [hm]
  cases ok <;> simp

/-- The trace after the decision part has switched the lights on and the pause
has taken `m` steps. -/
theorem after_pause_on_trace (env : Env) (s : State) (m : Nat) :
    (after_pause_steps env m
        (pin_high right_wing (pin_high left_wing (read_pulse_width env s).2))).trace =
      s.trace ++ ([Event.read_pulse_width (env.elapsed s.reads), Event.pin_high left_wing,
        Event.pin_high right_wing] ++ pause_steps env (s.reads + 1) m) := by
  simp [after_pause_steps, pin_high, read_pulse_width]

/-! ## Lemmas: two runs that read the same widths -/

theorem pause_steps_agree (env env2 : Env) (m : Nat) :
    ∀ r r2 : Nat, (∀ i, env2.elapsed (r2 + i) = env.elapsed (r + i)) →
      pause_steps env2 r2 m = pause_steps env r m := by
  induction m with
  | zero => intro r r2 _; rfl
  | succ m ih =>
    intro r r2 h
    have h0 : env2.elapsed r2 = env.elapsed r := by simpa using h 0
    simp only [pause_steps, h0]
    rw [ih (r + 1) (r2 + 1) (by
      intro i
      have := h (1 + i)
      simpa [Nat.add_assoc] using this)]

theorem monitored_pause_loop_agree (env env2 : Env) (fuel : Nat) :
    ∀ (t : Nat) (s s2 : State), t < 65536 → t + 2 ≤ fuel →
      (∀ i, env2.elapsed (s2.reads + i) = env.elapsed (s.reads + i)) →
      ∃ broken m,
        monitored_pause_loop env fuel false t s = some (broken, after_pause_steps env m s) ∧
        monitored_pause_loop env2 fuel false t s2 =
          some (broken, after_pause_steps env2 m s2) := by
  induction fuel with
  | zero => intro t s s2 _ hf; omega
  | succ f ih =>
    intro t s s2 ht hf hag
    have h0 : env2.elapsed s2.reads = env.elapsed s.reads := by simpa using hag 0
    by_cases ht50 : step_size < t
    · by_cases hw : env.elapsed s.reads < pulse_width_threshold
      · obtain ⟨g, rfl⟩ : ∃ g, f = g + 1 := ⟨f - 1, by omega⟩
        refine ⟨true, 1, ?_, ?_⟩
        · rw [monitored_pause_loop_break env g t s ht50 hw]
          simp [after_pause_steps, pause_steps, read_pulse_width, delay_ms]
        · rw [monitored_pause_loop_break env2 g t s2 ht50 (by rw [h0]; exact hw)]
          simp [after_pause_steps, pause_steps, read_pulse_width, delay_ms]
      · rw [monitored_pause_loop_step env f t s ht50 ht (by omega),
          monitored_pause_loop_step env2 f t s2 ht50 ht (by rw [h0]; omega)]
        obtain ⟨b, m, hm, hm2⟩ := ih (t - step_size)
          (read_pulse_width env (delay_ms step_size s)).2
          (read_pulse_width env2 (delay_ms step_size s2)).2 (by omega)
          (by simp only [step_size] at ht50 ⊢; omega)
          (by
            intro i
            have := hag (1 + i)
            simpa [read_pulse_width, delay_ms, Nat.add_assoc] using this)
        exact ⟨b, m + 1, by rw [hm, after_pause_steps_succ], by rw [hm2, after_pause_steps_succ]⟩
    · exact ⟨false, 0, by
        rw [monitored_pause_loop_done env f t s (by omega)]
        simp [after_pause_steps, pause_steps], by
        rw [monitored_pause_loop_done env2 f t s2 (by omega)]
        simp [after_pause_steps, pause_steps]⟩

theorem monitored_pause_agree (env env2 : Env) (s s2 : State)
    (hag : ∀ i, env2.elapsed (s2.reads + i) = env.elapsed (s.reads + i)) :
    ∃ ok m,
      monitored_pause env strobe_off_time s = some (ok, after_pause_steps env m s) ∧
      monitored_pause env2 strobe_off_time s2 = some (ok, after_pause_steps env2 m s2) := by
  obtain ⟨b, m, hm, hm2⟩ := monitored_pause_loop_agree env env2 (strobe_off_time + 2)
    (strobe_off_time % 65536) s s2 (by decide) (by decide) hag
  exact ⟨!b, m, by simp [monitored_pause, hm], by simp [monitored_pause, hm2]⟩

/-- The actions of a call of `handle_lights` that switches the lights on, whose
pause takes `m` steps and ends with `ok`. -/
theorem handle_lights_on_events (env : Env) (s : State) (ok : Bool) (m : Nat) :
    events_since s (if ok then strobe_animate (after_pause_steps env m
          (pin_high right_wing (pin_high left_wing (read_pulse_width env s).2)))
        else after_pause_steps env m
          (pin_high right_wing (pin_high left_wing (read_pulse_width env s).2))) =
      [Event.read_pulse_width (env.elapsed s.reads), Event.pin_high left_wing,
        Event.pin_high right_wing] ++ pause_steps env (s.reads + 1) m ++
        (if ok then strobe_events else []) := by
  cases ok with
  | true =>
    simp only [events_since, if_true, strobe_animate_events, after_pause_on_trace]
    rw [List.append_assoc s.trace, List.drop_left]
  | false =>
    simp only [events_since, Bool.false_eq_true, if_false, after_pause_on_trace]
    rw [List.drop_left]
    simp

/-- C17: with a radio present, a call of `handle_lights` from any state ends
with `lights_active` true exactly when the first width it reads is at least 96.
Then it drives both wing lights high and runs `monitored_pause`; otherwise
(every width below 96, dead zone included) its only actions are the read and
`sleep_mode`.  Two calls that read the same widths perform the same actions,
whatever states and earlier calls they start from. -/
theorem handle_lights_stateless (env : Env) (s : State) :
    ((handle_lights_decide env true s).1 = true ↔
        pulse_width_threshold + deadband ≤ env.elapsed s.reads) ∧
      (pulse_width_threshold + deadband ≤ env.elapsed s.reads →
        handle_lights_decide env true s =
          (true, pin_high right_wing (pin_high left_wing (read_pulse_width env s).2)) ∧
        ∃ ok m s',
          monitored_pause env strobe_off_time (handle_lights_decide env true s).2 =
            some (ok, after_pause_steps env m (handle_lights_decide env true s).2) ∧
          handle_lights env true s = some s' ∧
          events_since s s' =
            [Event.read_pulse_width (env.elapsed s.reads), Event.pin_high left_wing,
              Event.pin_high right_wing] ++ pause_steps env (s.reads + 1) m ++
              (if ok then strobe_events else [])) ∧
      (env.elapsed s.reads < pulse_width_threshold + deadband →
        handle_lights_decide env true s = (false, (read_pulse_width env s).2) ∧
        handle_lights env true s = some (sleep_mode (read_pulse_width env s).2) ∧
        events_since s (sleep_mode (read_pulse_width env s).2) =
          [Event.read_pulse_width (env.elapsed s.reads), Event.sleep_mode] ∧
        (sleep_mode (read_pulse_width env s).2).PORTB = s.PORTB) ∧
      ∀ (env2 : Env) (s2 : State),
        (∀ i, env2.elapsed (s2.reads + i) = env.elapsed (s.reads + i)) →
        (handle_lights_decide env2 true s2).1 = (handle_lights_decide env true s).1 ∧
        (handle_lights env2 true s2).map (events_since s2) =
          (handle_lights env true s).map (events_since s) := by
  refine ⟨?_, ?_, ?_, ?_⟩
  · by_cases h : pulse_width_threshold + deadband ≤ env.elapsed s.reads
    · simp [handle_lights_decide_on env s h, h]
    · simp [handle_lights_decide_off env s (by omega), h]
  · intro h
    have hd := handle_lights_decide_on env s h
    refine ⟨hd, ?_⟩
    obtain ⟨ok, m, hm⟩ := monitored_pause_total env
      (pin_high right_wing (pin_high left_wing (read_pulse_width env s).2))
    refine ⟨ok, m, _, ?_, handle_lights_on env s ok m h hm, handle_lights_on_events env s ok m⟩
    rw [hd]
    exact hm
  · intro h
    refine ⟨handle_lights_decide_off env s h, handle_lights_off env s h, ?_, rfl⟩
    have ht : (sleep_mode (read_pulse_width env s).2).trace =
        s.trace ++ [Event.read_pulse_width (env.elapsed s.reads), Event.sleep_mode] := by
      simp [sleep_mode, read_pulse_width]
    rw [events_since, ht, List.drop_left]
  · intro env2 s2 hag
    have h0 : env2.elapsed s2.reads = env.elapsed s.reads := by simpa using hag 0
    by_cases h : pulse_width_threshold + deadband ≤ env.elapsed s.reads
    · have h2 : pulse_width_threshold + deadband ≤ env2.elapsed s2.reads := by rw [h0]; exact h
      obtain ⟨ok, m, hm, hm2⟩ := monitored_pause_agree env env2
        (pin_high right_wing (pin_high left_wing (read_pulse_width env s).2))
        (pin_high right_wing (pin_high left_wing (read_pulse_width env2 s2).2))
        (by
          intro i
          have := hag (1 + i)
          simpa [pin_high, read_pulse_width, Nat.add_assoc] using this)
      refine ⟨by rw [handle_lights_decide_on env s h, handle_lights_decide_on env2 s2 h2], ?_⟩
      rw [handle_lights_on env s ok m h hm, handle_lights_on env2 s2 ok m h2 hm2]
      simp only [Option.map_some']
      rw [handle_lights_on_events, handle_lights_on_events, h0,
        pause_steps_agree env env2 m (s.reads + 1) (s2.reads + 1) (by
          intro i
          have := hag (1 + i)
          simpa [Nat.add_assoc] using this)]
    · have h1 : env.elapsed s.reads < pulse_width_threshold + deadband := by omega
      have h2 : env2.elapsed s2.reads < pulse_width_threshold + deadband := by rw [h0]; exact h1
      refine ⟨by rw [handle_lights_decide_off env s h1, handle_lights_decide_off env2 s2 h2], ?_⟩
      rw [handle_lights_off env s h1, handle_lights_off env2 s2 h2]
      simp [events_since, sleep_mode, read_pulse_width, h0]

/-! ## Lemmas: the wing lights over calls of `handle_lights` -/

theorem strobe_events_no_wing_low :
    Event.pin_low left_wing ∉ strobe_events ∧ Event.pin_low right_wing ∉ strobe_events := by
  decide

theorem pause_steps_no_wing_low (env : Env) (r m : Nat) (pin : pin_t) :
    Event.pin_low pin ∉ pause_steps env r m := by
  intro hmem
  rcases mem_pause_steps env r m _ hmem with h | ⟨v, h⟩
  · cases h
  · cases h

/-- A wing-light bit of `PORTB` that is set stays set across `strobe_animate`. -/
theorem strobe_animate_keeps_wing (s : State) (i : Nat) (hi : i < 2)
    (h : s.PORTB.testBit i = true) : (strobe_animate s).PORTB.testBit i = true := by
  have h8 : i < 8 := by omega
  rw [strobe_animate_testBit s i (by omega) (by omega), h]
  simp [h8]

/-- A wing-light bit of a register that is set stays set across `pin_high`. -/
theorem pin_high_reg_keeps (port : Nat) (pin : pin_t) (i : Nat) (hi : i < 2)
    (h : port.testBit i = true) : (pin_high_reg port pin).testBit i = true := by
  have h8 : i < 8 := by omega
  rw [testBit_pin_high_reg, h]
  simp [h8]

/-- One call of `handle_lights` returns, extends the trace by actions among
which there is no `pin_low` of a wing light, and keeps a set wing-light bit. -/
theorem handle_lights_no_wing_low (env : Env) (radio_is_connected : Bool) (s : State) :
    ∃ s' evs, handle_lights env radio_is_connected s = some s' ∧ s'.trace = s.trace ++ evs ∧
      Event.pin_low left_wing ∉ evs ∧ Event.pin_low right_wing ∉ evs ∧
      ∀ i, i < 2 → s.PORTB.testBit i = true → s'.PORTB.testBit i = true := by
  obtain ⟨hs1, hs2⟩ := strobe_events_no_wing_low
  cases radio_is_connected with
  | false =>
    refine ⟨_, [Event.pin_high left_wing, Event.pin_high right_wing,
      Event.delay_ms strobe_off_time] ++ strobe_events,
      handle_lights_without_radio env s, ?_, ?_, ?_, ?_⟩
    · rw [strobe_animate_events]
      simp [delay_ms, pin_high]
    · simp [hs1]
    · simp [hs2]
    · intro i hi h
      apply strobe_animate_keeps_wing _ i hi
      exact pin_high_reg_keeps _ _ i hi (pin_high_reg_keeps _ _ i hi h)
  | true =>
    by_cases h : pulse_width_threshold + deadband ≤ env.elapsed s.reads
    · obtain ⟨ok, m, hm⟩ := monitored_pause_total env
        (pin_high right_wing (pin_high left_wing (read_pulse_width env s).2))
      have hp1 := pause_steps_no_wing_low env (s.reads + 1) m left_wing
      have hp2 := pause_steps_no_wing_low env (s.reads + 1) m right_wing
      have hbits : ∀ i, i < 2 → s.PORTB.testBit i = true →
          (after_pause_steps env m (pin_high right_wing
            (pin_high left_wing (read_pulse_width env s).2))).PORTB.testBit i = true := by
        intro i hi hb
        exact pin_high_reg_keeps _ _ i hi (pin_high_reg_keeps _ _ i hi hb)
      refine ⟨_, [Event.read_pulse_width (env.elapsed s.reads), Event.pin_high left_wing,
        Event.pin_high right_wing] ++ pause_steps env (s.reads + 1) m ++
        (if ok then strobe_events else []), handle_lights_on env s ok m h hm, ?_, ?_, ?_, ?_⟩
      · cases ok with
        | true => simp [strobe_animate_events, after_pause_on_trace]
        | false => simp [after_pause_on_trace]
      · cases ok <;> simp [hp1, hs1]
      · cases ok <;> simp [hp2, hs2]
      · intro i hi hb
        cases ok with
        | true =>
          simp only [if_true]
          exact strobe_animate_keeps_wing _ i hi (hbits i hi hb)
        | false =>
          simp only [Bool.false_eq_true, if_false]
          exact hbits i hi hb
    · refine ⟨_, [Event.read_pulse_width (env.elapsed s.reads), Event.sleep_mode],
        handle_lights_off env s (by omega), ?_, ?_, ?_, ?_⟩
      · simp [sleep_mode, read_pulse_width]
      · simp
      · simp
      · intro i _ hb
        exact hb

/-! ## Theorems: the main loop -/

/-- C18: for every radio flag and every sequence of widths, the decision part
of `handle_lights` either drives both wing lights high or drives no pin; it
never drives a wing light low.  Any number of main-loop iterations returns,
performs no `pin_low(left_wing)` and no `pin_low(right_wing)`, and a wing-light
bit of `PORTB` that is set stays set. -/
theorem main_loop_never_wing_low (env : Env) (radio_is_connected : Bool) (n : Nat) (s : State) :
    (handle_lights_decide env radio_is_connected s =
        (true, pin_high right_wing (pin_high left_wing
          (if radio_is_connected then (read_pulse_width env s).2 else s))) ∨
      handle_lights_decide env radio_is_connected s =
        (false, if radio_is_connected then (read_pulse_width env s).2 else s)) ∧
      ∃ s' evs, main_loop env radio_is_connected n s = some s' ∧ s'.trace = s.trace ++ evs ∧
        evs.count (Event.pin_low left_wing) = 0 ∧
        evs.count (Event.pin_low right_wing) = 0 ∧
        (s.PORTB.testBit left_wing.position = true →
          s'.PORTB.testBit left_wing.position = true) ∧
        (s.PORTB.testBit right_wing.position = true →
          s'.PORTB.testBit right_wing.position = true) := by
  constructor
  · cases radio_is_connected with
    | false => exact Or.inl (by simp [handle_lights_decide])
    | true =>
      by_cases h : pulse_width_threshold + deadband ≤ env.elapsed s.reads
      · exact Or.inl (by simpa using handle_lights_decide_on env s h)
      · exact Or.inr (by simpa using handle_lights_decide_off env s (by omega))
  · have key : ∀ (k : Nat) (s0 : State), ∃ s' evs,
        main_loop env radio_is_connected k s0 = some s' ∧ s'.trace = s0.trace ++ evs ∧
        Event.pin_low left_wing ∉ evs ∧ Event.pin_low right_wing ∉ evs ∧
        ∀ i, i < 2 → s0.PORTB.testBit i = true → s'.PORTB.testBit i = true := by
      intro k
      induction k with
      | zero =>
        intro s0
        exact ⟨s0, [], rfl, by simp, by simp, by simp, fun _ _ h => h⟩
      | succ k ih =>
        intro s0
        obtain ⟨s1, e1, hs1, ht1, hl1, hr1, hb1⟩ :=
          handle_lights_no_wing_low env radio_is_connected s0
        obtain ⟨s2, e2, hs2, ht2, hl2, hr2, hb2⟩ := ih s1
        refine ⟨s2, e1 ++ e2, ?_, ?_, ?_, ?_, ?_⟩
        · simp only [main_loop, hs1]
          exact hs2
        · rw [ht2, ht1, List.append_assoc]
        · simp [hl1, hl2]
        · simp [hr1, hr2]
        · intro i hi h
          exact hb2 i hi (hb1 i hi h)
    obtain ⟨s', evs, hs, ht, hl, hr, hb⟩ := key n s
    exact ⟨s', evs, hs, ht, List.count_eq_zero.mpr hl, List.count_eq_zero.mpr hr,
      hb 1 (by decide), hb 0 (by decide)⟩

/-! ## Theorems: `monitored_pause` for every duration -/

/-- C19: for every 16-bit `time_ms` and every sequence of widths,
`monitored_pause` returns after at most `(time_ms - 1) / 50` steps of 50 ms
(none when `time_ms ≤ 50`).  It returns false exactly when one of the samples
of those steps is below 92, and then it stops at the first such sample;
otherwise it returns true after exactly `(time_ms - 1) / 50` steps.  The
countdown is decremented only while `time_ms > 50`, so the 16-bit subtraction
is exact. -/
theorem monitored_pause_steps (env : Env) (time_ms : Nat) (s : State) (h16 : time_ms < 65536) :
    (∃ ok m, monitored_pause env time_ms s = some (ok, after_pause_steps env m s) ∧
      m ≤ (time_ms - 1) / step_size ∧
      total_delay (pause_steps env s.reads m) = step_size * m ∧
      (ok = false ↔ ∃ i, i < (time_ms - 1) / step_size ∧
        env.elapsed (s.reads + i) < pulse_width_threshold) ∧
      (ok = false → 1 ≤ m ∧ env.elapsed (s.reads + (m - 1)) < pulse_width_threshold ∧
        ∀ i, i < m - 1 → pulse_width_threshold ≤ env.elapsed (s.reads + i)) ∧
      (ok = true → m = (time_ms - 1) / step_size) ∧
      (time_ms ≤ step_size → ok = true ∧ m = 0)) ∧
    (∀ (fuel t : Nat) (s0 : State), t < 65536 → ¬ step_size < t →
      monitored_pause_loop env (fuel + 1) false t s0 = some (false, s0)) ∧
    (∀ (fuel t : Nat) (s0 : State), t < 65536 → step_size < t →
      pulse_width_threshold ≤ env.elapsed s0.reads →
      (t + 65536 - step_size) % 65536 = t - step_size ∧ step_size ≤ t ∧
      monitored_pause_loop env (fuel + 1) false t s0 =
        monitored_pause_loop env fuel false (t - step_size)
          (read_pulse_width env (delay_ms step_size s0)).2) := by
  refine ⟨?_, ?_, ?_⟩
  · have hmod : time_ms % 65536 = time_ms := Nat.mod_eq_of_lt h16
    by_cases hex : ∃ i, i < (time_ms - 1) / step_size ∧
        env.elapsed (s.reads + i) < pulse_width_threshold
    · classical
      have hmin : ∀ i, i < Nat.find hex →
          ¬ (i < (time_ms - 1) / step_size ∧
            env.elapsed (s.reads + i) < pulse_width_threshold) :=
        fun i hi => Nat.find_min hex hi
      obtain ⟨hlt, hlow⟩ := Nat.find_spec hex
      have hge : ∀ i, i < Nat.find hex →
          pulse_width_threshold ≤ env.elapsed (s.reads + i) := by
        intro i hi
        have := hmin i hi
        have hi2 : i < (time_ms - 1) / step_size := by omega
        by_contra hc
        exact this ⟨hi2, by omega⟩
      simp only [step_size] at hlt
      have hrun := monitored_pause_loop_stop env (Nat.find hex) (time_ms + 2) time_ms s h16
        (by omega) (by simp only [step_size]; omega) hge hlow
      refine ⟨false, Nat.find hex + 1, ?_, ?_, total_delay_pause_steps env s.reads _, ?_, ?_,
        ?_, ?_⟩
      · simp [monitored_pause, hmod, hrun]
      · simp only [step_size]
        omega
      · simp only [true_iff]
        exact hex
      · intro _
        exact ⟨by omega, by simpa using hlow, by simpa using hge⟩
      · intro h
        cases h
      · intro h
        simp only [step_size] at h
        omega
    · have hge : ∀ i, i < (time_ms - 1) / step_size →
          pulse_width_threshold ≤ env.elapsed (s.reads + i) := by
        intro i hi
        by_contra hc
        exact hex ⟨i, hi, by omega⟩
      have hrun := monitored_pause_loop_run env ((time_ms - 1) / step_size) (time_ms + 2)
        time_ms s h16 (by simp only [step_size]; omega) (by simp only [step_size]; omega)
        (by simp only [step_size]; omega) hge
      refine ⟨true, (time_ms - 1) / step_size, ?_, Nat.le_refl _,
        total_delay_pause_steps env s.reads _, ?_, ?_, ?_, ?_⟩
      · simp [monitored_pause, hmod, hrun]
      · constructor
        · intro h
          cases h
        · intro h
          exact absurd h hex
      · intro h
        cases h
      · intro _
        rfl
      · intro h
        refine ⟨rfl, ?_⟩
        simp only [step_size] at h ⊢
        omega
  · intro fuel t s0 _ ht
    exact monitored_pause_loop_done env fuel t s0 (by omega)
  · intro fuel t s0 ht16 ht hw
    refine ⟨?_, by omega, monitored_pause_loop_step env fuel t s0 ht ht16 hw⟩
    simp only [step_size] at ht ⊢
    omega

/-- Witness for C19: `time_ms = 1000` with `elapsed` constantly 100, from the
reset state: 19 steps, 950 ms. -/
theorem monitored_pause_steps_witness :
    ∃ ok m, monitored_pause (Env.const 100 PINB_low) 1000 State.init =
        some (ok, after_pause_steps (Env.const 100 PINB_low) m State.init) ∧
      m ≤ (1000 - 1) / step_size ∧
      total_delay (pause_steps (Env.const 100 PINB_low) State.init.reads m) = step_size * m ∧
      (ok = false ↔ ∃ i, i < (1000 - 1) / step_size ∧
        (Env.const 100 PINB_low).elapsed (State.init.reads + i) < pulse_width_threshold) ∧
      (ok = false → 1 ≤ m ∧
        (Env.const 100 PINB_low).elapsed (State.init.reads + (m - 1)) < pulse_width_threshold ∧
        ∀ i, i < m - 1 →
          pulse_width_threshold ≤ (Env.const 100 PINB_low).elapsed (State.init.reads + i)) ∧
      (ok = true → m = (1000 - 1) / step_size) ∧
      ((1000 : Nat) ≤ step_size → ok = true ∧ m = 0) :=
  (monitored_pause_steps (Env.const 100 PINB_low) 1000 State.init (by decide)).1

end NavLights
